import Mathlib

/-!
Verification development for the quickcut browser NLE editor core:
the editor data model (`types/editConfig.ts`), the Zustand session store
(undo/redo history, debounced gesture commits, zoom/annotation actions),
and the timeline interaction layer (`components/editor/Timeline.tsx`).
Times are embedded as exact rationals.
-/

namespace QuickCut

/-- Embeds `CutConfig` from `types/editConfig.ts`.  The source field `end`
is a Lean keyword and is embedded as `stop`. -/
structure CutConfig where
  id : String
  start : ℚ
  stop : ℚ
  reason : String
deriving DecidableEq

/-- Embeds `ZoomConfig` from `types/editConfig.ts`. -/
structure ZoomConfig where
  id : String
  time : ℚ
  duration : ℚ
  scale : ℚ
  easing : String
  anchorX : ℚ
  anchorY : ℚ
  reason : String
deriving DecidableEq

/-- Embeds `ReframingConfig` from `types/editConfig.ts`. -/
structure ReframingConfig where
  enabled : Bool
  mode : String
  manualCropX : Option ℚ
deriving DecidableEq

/-- Embeds `CaptionConfig` from `types/editConfig.ts`; string unions are
embedded as `String`. -/
structure CaptionConfig where
  enabled : Bool
  style : String
  position : String
  fontSize : String
  primaryColor : String
  highlightColor : String
  backgroundColor : Option String
  font : String
  maxWordsPerLine : Nat
  animation : String
  highlightKeywords : Bool
  customKeywords : List String
deriving DecidableEq

/-- Embeds `TransitionConfig` from `types/editConfig.ts`. -/
structure TransitionConfig where
  intro : String
  outro : String
  betweenCuts : String
deriving DecidableEq

/-- Embeds `MusicConfig` from `types/editConfig.ts`. -/
structure MusicConfig where
  enabled : Bool
  track : Option String
  volume : ℚ
  duckOnSpeech : Bool
deriving DecidableEq

/-- Embeds `SoundEffectsConfig` from `types/editConfig.ts`. -/
structure SoundEffectsConfig where
  enabled : Bool
  whooshOnCut : Bool
  boomOnKeyMoment : Bool
  volume : ℚ
deriving DecidableEq

/-- Embeds `AudioConfig` from `types/editConfig.ts`. -/
structure AudioConfig where
  normalizeVolume : Bool
  removeBackgroundNoise : Bool
  music : MusicConfig
  soundEffects : SoundEffectsConfig
deriving DecidableEq

/-- Embeds the inline `watermark` object of `OverlayConfig`. -/
structure WatermarkConfig where
  enabled : Bool
  imageUrl : Option String
  position : String
deriving DecidableEq

/-- Embeds `OverlayConfig` from `types/editConfig.ts`. -/
structure OverlayConfig where
  progressBar : Bool
  hookText : Option String
  ctaText : Option String
  watermark : WatermarkConfig
deriving DecidableEq

/-- Embeds `SegmentConfig` from `types/editConfig.ts`; the
`SegmentTransition` string union is embedded as `String`. -/
structure SegmentConfig where
  id : String
  sourceStart : ℚ
  sourceEnd : ℚ
  transition : String
  transitionDuration : Option ℚ
deriving DecidableEq

/-- Embeds `CaptionOverride` from `types/editConfig.ts`. -/
structure CaptionOverride where
  text : Option String
  hidden : Option Bool
  highlight : Option Bool
deriving DecidableEq

/-- Embeds the annotation style object built by the store's `addAnnotation`
action (the `AnnotationStyle` type itself is not present under `src/`). -/
structure AnnotationStyle where
  fontFamily : String
  fontSize : ℚ
  color : String
  backgroundColor : Option String
  bold : Bool
  italic : Bool
  borderRadius : ℚ
deriving DecidableEq

/-- Embeds the annotation objects used by the store and `Timeline.tsx`:
`{id, type, content, x, y, width, height, startTime, endTime, style}`. -/
structure AnnotationConfig where
  id : String
  type : String
  content : String
  x : ℚ
  y : ℚ
  width : ℚ
  height : ℚ
  startTime : ℚ
  endTime : ℚ
  style : AnnotationStyle
deriving DecidableEq

/-- Embeds `EditConfig` from `types/editConfig.ts`, with the `annotations`
array used by the current store; `captionOverrides : Record<number,
CaptionOverride>` is embedded as an association list. -/
structure EditConfig where
  outputRatio : String
  segments : List SegmentConfig
  cuts : List CutConfig
  zooms : List ZoomConfig
  reframing : ReframingConfig
  captions : CaptionConfig
  transitions : TransitionConfig
  audio : AudioConfig
  overlays : OverlayConfig
  captionOverrides : List (Nat × CaptionOverride)
  annotations : List AnnotationConfig
deriving DecidableEq

/-- Embeds transcript `Word` entries (`{word, start, end, confidence,
speaker}`); `end` is embedded as `stop`. -/
structure Word where
  word : String
  start : ℚ
  stop : ℚ
  confidence : ℚ
  speaker : Option String
deriving DecidableEq

/-- Embeds the `SourceVideo` fields used by the timeline
(`offsetInTimeline`, `originalName`). -/
structure SourceVideo where
  offsetInTimeline : ℚ
  originalName : String
deriving DecidableEq

/-- Embeds the `Clip` fields the store reads (`clip.editConfig`). -/
structure Clip where
  id : String
  editConfig : EditConfig
deriving DecidableEq

/-- Embeds the `Project` document as an identifier; the store never reads
its fields. -/
structure Project where
  id : String
deriving DecidableEq

/-- Embeds `SelectedElement` from the store (`type` is one of `segment`,
`caption`, `zoom`, `annotation`). -/
structure SelectedElement where
  type : String
  id : String
  index : Option Nat
deriving DecidableEq

/-- Embeds the data fields of the Zustand `EditorState` (actions are
embedded separately as functions on this state). -/
@[ext]
structure EditorState where
  clip : Option Clip
  project : Option Project
  sourceVideoUrl : Option String
  proxyVideoUrl : Option String
  useProxy : Bool
  sourceVideos : List SourceVideo
  transcript : List Word
  clipStart : ℚ
  clipEnd : ℚ
  editConfig : Option EditConfig
  editHistory : List EditConfig
  editFuture : List EditConfig
  selectedElement : Option SelectedElement
  timelineZoom : ℚ
  timelineScroll : ℚ
  isPlaying : Bool
  currentTime : ℚ
  totalDuration : ℚ
  isDirty : Bool
  isSaving : Bool
  lastSavedAt : Option ℚ
deriving DecidableEq

/-- A session couples the store state with the module-level debounce slots
of the store file: `_debounceTimer` (embedded as the flag `timerSet`) and
`_debounceSnapshot` (embedded as `pending`). -/
@[ext]
structure Session where
  store : EditorState
  timerSet : Bool
  pending : Option EditConfig
deriving DecidableEq

/-! ## Segment editing library (`lib/editor/segments.ts`)

The library file itself is not present under `src/`; only its callers and
the spec text describe it.  The functions below are modelled from the
spec (section 4.2) and are named after the import aliases the store uses
(`splitSeg`, `deleteSeg`, `adjustEdge`). -/

/-- Modelled from the spec: `segmentsToCuts(segments, clipDuration)`
"derives the gap list" between consecutive kept source ranges; the exact
`lib/editor/segments.ts` implementation is missing from `src/`. -/
def segmentsToCuts (segments : List SegmentConfig) (clipDuration : ℚ) : List CutConfig :=
  let rec go : List SegmentConfig → ℚ → List CutConfig
    | [], prev =>
      if prev < clipDuration then [⟨"cut_tail", prev, clipDuration, "manual"⟩] else []
    | seg :: rest, prev =>
      if prev < seg.sourceStart then
        ⟨"cut_" ++ seg.id, prev, seg.sourceStart, "manual"⟩ :: go rest seg.sourceEnd
      else go rest seg.sourceEnd
  go segments 0

/-- Modelled from the spec: `split(segments, id, atSourceTime)` "replaces
one segment with two contiguous ones summing to the original duration;
the second half defaults to no transition, the first half retains the
original's incoming transition.  Fails silently (returns input unchanged)
if `atSourceTime` is not strictly inside the segment's range."  The
implementation is missing from `src/`. -/
def splitSeg (segments : List SegmentConfig) (segmentId : String) (atSourceTime : ℚ) :
    List SegmentConfig :=
  segments.flatMap fun seg =>
    if seg.id = segmentId then
      if seg.sourceStart < atSourceTime ∧ atSourceTime < seg.sourceEnd then
        [{ seg with sourceEnd := atSourceTime },
         { id := seg.id ++ "_b", sourceStart := atSourceTime, sourceEnd := seg.sourceEnd,
           transition := "none", transitionDuration := none }]
      else [seg]
    else [seg]

/-- Modelled from the spec: `deleteSegment(segments, id)` is list-local;
the minimum-one-segment invariant "is enforced by the caller, not this
function", so the function itself just removes the matching segment.  The
implementation is missing from `src/`. -/
def deleteSeg (segments : List SegmentConfig) (segmentId : String) : List SegmentConfig :=
  segments.filter fun seg => seg.id ≠ segmentId

/-- Modelled from the spec: `adjustEdge(segments, id, edge, newSourceTime)`
"moves `sourceStart` or `sourceEnd`, rejecting values that would violate
the minimum-duration invariant" (`sourceEnd > sourceStart + ε`, ε = 0.1s).
The implementation is missing from `src/`. -/
def adjustEdge (segments : List SegmentConfig) (segmentId : String)
    (edge : String) (newSourceTime : ℚ) : List SegmentConfig :=
  segments.map fun seg =>
    if seg.id = segmentId then
      if edge = "start" then
        if newSourceTime + 1/10 < seg.sourceEnd then { seg with sourceStart := newSourceTime }
        else seg
      else
        if seg.sourceStart + 1/10 < newSourceTime then { seg with sourceEnd := newSourceTime }
        else seg
    else seg

/-! ## Coordinate mapper (`lib/editor/TimeMap.ts`)

The TimeMap implementation is not present under `src/`; the functions
below are modelled from the spec (section 4.1), matching the in-repo
analogue `activeWordIndex`, which walks the segment array in order and
stops at the first segment that contains the time. -/

/-- Walk the segments in array order with the accumulated output offset;
return the output time of the first segment whose closed source range
`[sourceStart, sourceEnd]` contains `s`. -/
def sourceToOutputAux : List SegmentConfig → ℚ → ℚ → Option ℚ
  | [], _, _ => none
  | seg :: rest, off, s =>
    if seg.sourceStart ≤ s ∧ s ≤ seg.sourceEnd then some (off + (s - seg.sourceStart))
    else sourceToOutputAux rest (off + (seg.sourceEnd - seg.sourceStart)) s

/-- Output end position of the nearest preceding segment: among segments
with `sourceEnd ≤ s`, the greatest output end (the spec's stated policy
for a source time inside a removed region). -/
def gapFallback (segments : List SegmentConfig) (s : ℚ) : ℚ :=
  let rec go : List SegmentConfig → ℚ → ℚ → ℚ
    | [], _, best => best
    | seg :: rest, off, best =>
      let dur := seg.sourceEnd - seg.sourceStart
      let best' := if seg.sourceEnd ≤ s ∧ best < off + dur then off + dur else best
      go rest (off + dur) best'
  go segments 0 0

/-- Modelled from the spec: `sourceToOutput(s)` locates the segment whose
`[sourceStart, sourceEnd]` contains `s` (first in array order) and
returns `outputStart + (s - sourceStart)`; for `s` inside a removed
region it returns the output position of the end of the nearest
preceding segment.  The implementation is missing from `src/`. -/
def sourceToOutput (segments : List SegmentConfig) (s : ℚ) : ℚ :=
  match sourceToOutputAux segments 0 s with
  | some t => t
  | none => gapFallback segments s

/-- Walk the segments in array order with the accumulated output offset;
return the source time of the segment whose half-open output range
`[outputStart, outputStart + duration)` contains `t`. -/
def outputToSourceAux : List SegmentConfig → ℚ → ℚ → Option ℚ
  | [], _, _ => none
  | seg :: rest, off, t =>
    let dur := seg.sourceEnd - seg.sourceStart
    if off ≤ t ∧ t < off + dur then some (seg.sourceStart + (t - off))
    else outputToSourceAux rest (off + dur) t

/-- Modelled from the spec: `outputToSource(t)` locates the segment whose
`[outputStart, outputStart + duration)` contains `t` and returns
`sourceStart + (t - outputStart)`; for `t` beyond the total duration it
clamps to the end of the last segment.  The implementation is missing
from `src/`. -/
def outputToSource (segments : List SegmentConfig) (t : ℚ) : ℚ :=
  match outputToSourceAux segments 0 t with
  | some s => s
  | none => ((segments.getLast?).map SegmentConfig.sourceEnd).getD 0

/-- Modelled from the spec: `totalDuration = Σ duration_i` over the
segment list (the playback engine owning this value is missing from
`src/`). -/
def totalDuration (segments : List SegmentConfig) : ℚ :=
  (segments.map fun seg => seg.sourceEnd - seg.sourceStart).sum

/-! ## Session store (the Zustand store embedded in
`components/editor/CaptionStylePicker.tsx`, superseding
`stores/editorStore.ts`) -/

/-- Embeds the JavaScript `array.slice(-n)`: keep the last `n` elements. -/
def sliceLast (l : List α) (n : Nat) : List α :=
  l.drop (l.length - n)

/-- Embeds `MAX_HISTORY = 50`. -/
def MAX_HISTORY : Nat := 50

/-- Embeds `pushHistory(state)`: push the current configuration onto the
undo stack capped at `MAX_HISTORY` and clear the redo stack; no-op when
there is no configuration.  Returns the `(editHistory, editFuture)` pair. -/
def pushHistoryPair (st : EditorState) : List EditConfig × List EditConfig :=
  match st.editConfig with
  | none => (st.editHistory, st.editFuture)
  | some cfg => (sliceLast (st.editHistory ++ [cfg]) MAX_HISTORY, [])

/-- Embeds `clampZoomAnchor(anchorX, anchorY, scale)`:
`half = 0.5 / scale; anchor = clamp(anchor, half, 1 - half)`. -/
def clampZoomAnchor (anchorX anchorY scale : ℚ) : ℚ × ℚ :=
  let half := (1/2) / scale
  (min (max anchorX half) (1 - half), min (max anchorY half) (1 - half))

/-- Embeds `syncCutsFromSegments(config, clipDuration)`. -/
def syncCutsFromSegments (config : EditConfig) (clipDuration : ℚ) : EditConfig :=
  { config with cuts := segmentsToCuts config.segments clipDuration }

/-- Embeds `Partial<EditConfig>`: each field optionally present. -/
structure EditConfigChanges where
  outputRatio : Option String := none
  segments : Option (List SegmentConfig) := none
  cuts : Option (List CutConfig) := none
  zooms : Option (List ZoomConfig) := none
  reframing : Option ReframingConfig := none
  captions : Option CaptionConfig := none
  transitions : Option TransitionConfig := none
  audio : Option AudioConfig := none
  overlays : Option OverlayConfig := none
  captionOverrides : Option (List (Nat × CaptionOverride)) := none
  annotations : Option (List AnnotationConfig) := none
deriving DecidableEq

/-- Embeds the spread merge `{...state.editConfig, ...changes}`. -/
def mergeChanges (cfg : EditConfig) (ch : EditConfigChanges) : EditConfig :=
  { outputRatio := ch.outputRatio.getD cfg.outputRatio
    segments := ch.segments.getD cfg.segments
    cuts := ch.cuts.getD cfg.cuts
    zooms := ch.zooms.getD cfg.zooms
    reframing := ch.reframing.getD cfg.reframing
    captions := ch.captions.getD cfg.captions
    transitions := ch.transitions.getD cfg.transitions
    audio := ch.audio.getD cfg.audio
    overlays := ch.overlays.getD cfg.overlays
    captionOverrides := ch.captionOverrides.getD cfg.captionOverrides
    annotations := ch.annotations.getD cfg.annotations }

/-- Embeds the update performed by both `updateEditConfig` and
`updateEditConfigDebounced`: spread merge, then `syncCutsFromSegments`
when the changes carry a `segments` field. -/
def applyChanges (cfg : EditConfig) (ch : EditConfigChanges) (clipDuration : ℚ) : EditConfig :=
  let newConfig := mergeChanges cfg ch
  if ch.segments.isSome then syncCutsFromSegments newConfig clipDuration else newConfig

/-- Embeds the store's `initialize` action (named `initStore` here):
resets the edit state from a clip; the module-level debounce slots are
untouched by it. -/
def initStore (sess : Session) (clip : Clip) (project : Project)
    (sourceVideoUrl : String) (proxyVideoUrl : Option String)
    (sourceVideos : List SourceVideo) (transcript : List Word)
    (clipStart clipEnd : ℚ) : Session :=
  { sess with
    store :=
    { sess.store with
      clip := some clip, project := some project
      sourceVideoUrl := some sourceVideoUrl, proxyVideoUrl := proxyVideoUrl
      useProxy := proxyVideoUrl.isSome
      sourceVideos := sourceVideos, transcript := transcript
      clipStart := clipStart, clipEnd := clipEnd
      editConfig := some clip.editConfig
      editHistory := [], editFuture := []
      selectedElement := none, isDirty := false } }

/-- Embeds `toggleProxy`. -/
def toggleProxy (sess : Session) : Session :=
  match sess.store.proxyVideoUrl with
  | none => sess
  | some _ => { sess with store := { sess.store with useProxy := !sess.store.useProxy } }

/-- Embeds `setPlaybackState`. -/
def setPlaybackState (sess : Session) (isPlaying : Bool) (currentTime totalDur : ℚ) : Session :=
  { sess with
    store :=
    { sess.store with
      isPlaying := isPlaying, currentTime := currentTime,
      totalDuration := totalDur } }

/-- Embeds `updateEditConfig(changes)`: a discrete (immediate-commit)
edit — push history, apply the merge (with cut sync), mark dirty. -/
def updateEditConfig (sess : Session) (ch : EditConfigChanges) : Session :=
  match sess.store.editConfig with
  | none => sess
  | some cfg =>
    let hist := pushHistoryPair sess.store
    let clipDuration := sess.store.clipEnd - sess.store.clipStart
    { sess with
      store :=
      { sess.store with
        editConfig := some (applyChanges cfg ch clipDuration),
        editHistory := hist.1, editFuture := hist.2, isDirty := true } }

/-- Embeds `updateEditConfigDebounced(changes)`: capture the pre-gesture
snapshot on the first call, apply the change immediately without pushing
history, and (re)arm the quiet-period timer. -/
def updateEditConfigDebounced (sess : Session) (ch : EditConfigChanges) : Session :=
  match sess.store.editConfig with
  | none => sess
  | some cfg =>
    let pending := match sess.pending with
      | some snap => some snap
      | none => some cfg
    let clipDuration := sess.store.clipEnd - sess.store.clipStart
    { store := { sess.store with
      editConfig := some (applyChanges cfg ch clipDuration),
                 isDirty := true },
      timerSet := true, pending := pending }

/-- Embeds the body of the debounce `setTimeout` callback: when it fires,
commit the pre-gesture snapshot as a single undo entry and clear the
pending slot and the timer. -/
def fireDebounce (sess : Session) : Session :=
  let store :=
    match sess.pending, sess.store.editConfig with
    | some snap, some _ =>
      { sess.store with
        editHistory := sliceLast (sess.store.editHistory ++ [snap]) MAX_HISTORY,
        editFuture := [] }
    | _, _ => sess.store
  { store := store, timerSet := false, pending := none }

/-- Embeds the first half of `undo`: cancel the timer and flush a pending
gesture snapshot into the undo history. -/
def undoFlush (sess : Session) : Session :=
  match sess.pending with
  | none => { sess with timerSet := false }
  | some snap =>
    { store := { sess.store with
        editHistory := sliceLast (sess.store.editHistory ++ [snap]) MAX_HISTORY,
        editFuture := [] },
      timerSet := false, pending := none }

/-- Embeds the second half of `undo`: pop the undo stack into the current
configuration, pushing the replaced configuration onto the redo stack. -/
def undoPop (sess : Session) : Session :=
  match sess.store.editConfig, sess.store.editHistory.getLast? with
  | some cfg, some previous =>
    { sess with
      store :=
      { sess.store with
        editConfig := some previous,
        editHistory := sess.store.editHistory.dropLast,
        editFuture := cfg :: sess.store.editFuture, isDirty := true } }
  | _, _ => sess

/-- Embeds `undo`. -/
def undo (sess : Session) : Session :=
  undoPop (undoFlush sess)

/-- Embeds the first half of `redo`: a pending debounced gesture is
cancelled (timer cleared, snapshot discarded without being flushed). -/
def redoClear (sess : Session) : Session :=
  if sess.timerSet then { sess with timerSet := false, pending := none } else sess

/-- Embeds the second half of `redo`: pop the redo stack into the current
configuration, pushing the replaced configuration onto the undo stack
(without a capacity cap, mirroring the source). -/
def redoPop (sess : Session) : Session :=
  match sess.store.editConfig, sess.store.editFuture with
  | some cfg, next :: rest =>
    { sess with
      store :=
      { sess.store with
        editConfig := some next,
        editHistory := sess.store.editHistory ++ [cfg],
        editFuture := rest, isDirty := true } }
  | _, _ => sess

/-- Embeds `redo`. -/
def redo (sess : Session) : Session :=
  redoPop (redoClear sess)

/-- Embeds `selectElement`. -/
def selectElement (sess : Session) (element : Option SelectedElement) : Session :=
  { sess with store := { sess.store with selectedElement := element } }

/-- Embeds `setTimelineZoom` (clamped to `[10, 200]`). -/
def setTimelineZoom (sess : Session) (zoom : ℚ) : Session :=
  { sess with store := { sess.store with timelineZoom := max 10 (min 200 zoom) } }

/-- Embeds `setTimelineScroll` (clamped to `≥ 0`). -/
def setTimelineScroll (sess : Session) (scroll : ℚ) : Session :=
  { sess with store := { sess.store with timelineScroll := max 0 scroll } }

/-- Embeds `markSaved`; `Date.now()` is passed in as `now`. -/
def markSaved (sess : Session) (now : ℚ) : Session :=
  { sess with
    store :=
    { sess.store with isDirty := false, isSaving := false, lastSavedAt := some now } }

/-- Embeds `markSaving`. -/
def markSaving (sess : Session) : Session :=
  { sess with store := { sess.store with isSaving := true } }

/-- Embeds the store action `splitSegment(segmentId, atSourceTime)`. -/
def splitSegment (sess : Session) (segmentId : String) (atSourceTime : ℚ) : Session :=
  match sess.store.editConfig with
  | none => sess
  | some cfg =>
    let hist := pushHistoryPair sess.store
    let clipDuration := sess.store.clipEnd - sess.store.clipStart
    let newConfig := syncCutsFromSegments
      { cfg with segments := splitSeg cfg.segments segmentId atSourceTime } clipDuration
    { sess with
      store :=
      { sess.store with
        editConfig := some newConfig,
        editHistory := hist.1, editFuture := hist.2, isDirty := true } }

/-- Embeds the store action `deleteSegment(segmentId)`. -/
def deleteSegment (sess : Session) (segmentId : String) : Session :=
  match sess.store.editConfig with
  | none => sess
  | some cfg =>
    let hist := pushHistoryPair sess.store
    let clipDuration := sess.store.clipEnd - sess.store.clipStart
    let newConfig := syncCutsFromSegments
      { cfg with segments := deleteSeg cfg.segments segmentId } clipDuration
    { sess with
      store :=
      { sess.store with
        editConfig := some newConfig,
        editHistory := hist.1, editFuture := hist.2, isDirty := true } }

/-- Embeds the store action `adjustSegmentEdge(segmentId, edge, newTime)`. -/
def adjustSegmentEdge (sess : Session) (segmentId : String) (edge : String)
    (newTime : ℚ) : Session :=
  match sess.store.editConfig with
  | none => sess
  | some cfg =>
    let hist := pushHistoryPair sess.store
    let clipDuration := sess.store.clipEnd - sess.store.clipStart
    let newConfig := syncCutsFromSegments
      { cfg with segments := adjustEdge cfg.segments segmentId edge newTime } clipDuration
    { sess with
      store :=
      { sess.store with
        editConfig := some newConfig,
        editHistory := hist.1, editFuture := hist.2, isDirty := true } }

/-- Embeds the store action `addZoom(time)`; the `Date.now()`-derived
fresh identifier is passed in as `freshId`. -/
def addZoom (sess : Session) (time : ℚ) (freshId : String) : Session :=
  match sess.store.editConfig with
  | none => sess
  | some cfg =>
    let hist := pushHistoryPair sess.store
    let anchors := clampZoomAnchor (1/2) (2/5) (23/20)
    let newZoom : ZoomConfig :=
      { id := freshId, time := time, duration := 1/2, scale := 23/20,
        easing := "ease_in_out", anchorX := anchors.1, anchorY := anchors.2,
        reason := "manual" }
    { sess with
      store :=
      { sess.store with
        editConfig := some { cfg with zooms := cfg.zooms ++ [newZoom] },
        editHistory := hist.1, editFuture := hist.2, isDirty := true,
        selectedElement := some ⟨"zoom", freshId, none⟩ } }

/-- Embeds `Partial<ZoomConfig>`. -/
structure ZoomChanges where
  id : Option String := none
  time : Option ℚ := none
  duration : Option ℚ := none
  scale : Option ℚ := none
  easing : Option String := none
  anchorX : Option ℚ := none
  anchorY : Option ℚ := none
  reason : Option String := none
deriving DecidableEq

/-- Embeds the spread merge `{...z, ...changes}` for zooms. -/
def mergeZoom (z : ZoomConfig) (ch : ZoomChanges) : ZoomConfig :=
  { id := ch.id.getD z.id, time := ch.time.getD z.time,
    duration := ch.duration.getD z.duration, scale := ch.scale.getD z.scale,
    easing := ch.easing.getD z.easing, anchorX := ch.anchorX.getD z.anchorX,
    anchorY := ch.anchorY.getD z.anchorY, reason := ch.reason.getD z.reason }

/-- Embeds the store action `updateZoom(zoomId, changes)`: merge, then
re-clamp anchors whenever scale or anchor changes. -/
def updateZoom (sess : Session) (zoomId : String) (ch : ZoomChanges) : Session :=
  match sess.store.editConfig with
  | none => sess
  | some cfg =>
    let hist := pushHistoryPair sess.store
    let zooms := cfg.zooms.map fun z =>
      if z.id ≠ zoomId then z
      else
        let merged := mergeZoom z ch
        let clamped := clampZoomAnchor merged.anchorX merged.anchorY merged.scale
        { merged with anchorX := clamped.1, anchorY := clamped.2 }
    { sess with
      store :=
      { sess.store with
        editConfig := some { cfg with zooms := zooms },
        editHistory := hist.1, editFuture := hist.2, isDirty := true } }

/-- Embeds the store action `deleteZoom(zoomId)`: remove the zoom and
clear the selection when the selected element has the same id. -/
def deleteZoom (sess : Session) (zoomId : String) : Session :=
  match sess.store.editConfig with
  | none => sess
  | some cfg =>
    let hist := pushHistoryPair sess.store
    let zooms := cfg.zooms.filter fun z => z.id ≠ zoomId
    { sess with
      store :=
      { sess.store with
        editConfig := some { cfg with zooms := zooms },
        editHistory := hist.1, editFuture := hist.2, isDirty := true,
        selectedElement :=
          if (sess.store.selectedElement.map SelectedElement.id) = some zoomId then none
          else sess.store.selectedElement } }

/-- Update an association-list entry, embedding
`overrides[wordIndex] = f overrides[wordIndex]` on the record. -/
def setOverride (overrides : List (Nat × CaptionOverride)) (wordIndex : Nat)
    (value : CaptionOverride) : List (Nat × CaptionOverride) :=
  if (overrides.lookup wordIndex).isSome then
    overrides.map fun p => if p.1 = wordIndex then (wordIndex, value) else p
  else overrides ++ [(wordIndex, value)]

/-- Embeds the store action `updateCaptionText(wordIndex, newText)`. -/
def updateCaptionText (sess : Session) (wordIndex : Nat) (newText : String) : Session :=
  match sess.store.editConfig with
  | none => sess
  | some cfg =>
    let hist := pushHistoryPair sess.store
    let existing := (cfg.captionOverrides.lookup wordIndex).getD ⟨none, none, none⟩
    let overrides := setOverride cfg.captionOverrides wordIndex
      { existing with text := some newText }
    { sess with
      store :=
      { sess.store with
        editConfig := some { cfg with captionOverrides := overrides },
        editHistory := hist.1, editFuture := hist.2, isDirty := true } }

/-- Embeds the store action `toggleWordHighlight(wordIndex)`. -/
def toggleWordHighlight (sess : Session) (wordIndex : Nat) : Session :=
  match sess.store.editConfig with
  | none => sess
  | some cfg =>
    let hist := pushHistoryPair sess.store
    let existing := cfg.captionOverrides.lookup wordIndex
    let prev := ((existing.map CaptionOverride.highlight).getD none).getD false
    let overrides := setOverride cfg.captionOverrides wordIndex
      { (existing.getD ⟨none, none, none⟩) with highlight := some (!prev) }
    { sess with
      store :=
      { sess.store with
        editConfig := some { cfg with captionOverrides := overrides },
        editHistory := hist.1, editFuture := hist.2, isDirty := true } }

/-- Embeds the store action `hideWord(wordIndex)`. -/
def hideWord (sess : Session) (wordIndex : Nat) : Session :=
  match sess.store.editConfig with
  | none => sess
  | some cfg =>
    let hist := pushHistoryPair sess.store
    let existing := cfg.captionOverrides.lookup wordIndex
    let prev := ((existing.map CaptionOverride.hidden).getD none).getD false
    let overrides := setOverride cfg.captionOverrides wordIndex
      { (existing.getD ⟨none, none, none⟩) with hidden := some (!prev) }
    { sess with
      store :=
      { sess.store with
        editConfig := some { cfg with captionOverrides := overrides },
        editHistory := hist.1, editFuture := hist.2, isDirty := true } }

/-- Embeds `Partial<CaptionConfig>`. -/
structure CaptionChanges where
  enabled : Option Bool := none
  style : Option String := none
  position : Option String := none
  fontSize : Option String := none
  primaryColor : Option String := none
  highlightColor : Option String := none
  backgroundColor : Option (Option String) := none
  font : Option String := none
  maxWordsPerLine : Option Nat := none
  animation : Option String := none
  highlightKeywords : Option Bool := none
  customKeywords : Option (List String) := none
deriving DecidableEq

/-- Embeds the spread merge `{...state.editConfig.captions, ...changes}`. -/
def mergeCaptions (c : CaptionConfig) (ch : CaptionChanges) : CaptionConfig :=
  { enabled := ch.enabled.getD c.enabled, style := ch.style.getD c.style,
    position := ch.position.getD c.position, fontSize := ch.fontSize.getD c.fontSize,
    primaryColor := ch.primaryColor.getD c.primaryColor,
    highlightColor := ch.highlightColor.getD c.highlightColor,
    backgroundColor := ch.backgroundColor.getD c.backgroundColor,
    font := ch.font.getD c.font,
    maxWordsPerLine := ch.maxWordsPerLine.getD c.maxWordsPerLine,
    animation := ch.animation.getD c.animation,
    highlightKeywords := ch.highlightKeywords.getD c.highlightKeywords,
    customKeywords := ch.customKeywords.getD c.customKeywords }

/-- Embeds the store action `updateCaptionStyle(changes)`. -/
def updateCaptionStyle (sess : Session) (ch : CaptionChanges) : Session :=
  match sess.store.editConfig with
  | none => sess
  | some cfg =>
    let hist := pushHistoryPair sess.store
    { sess with
      store :=
      { sess.store with
        editConfig := some { cfg with captions := mergeCaptions cfg.captions ch },
        editHistory := hist.1, editFuture := hist.2, isDirty := true } }

/-- Embeds the store action `addAnnotation(time)` (named `addAnnotationAct`
here); the `Date.now()`-derived fresh identifier is passed in as
`freshId`. -/
def addAnnotationAct (sess : Session) (time : ℚ) (freshId : String) : Session :=
  match sess.store.editConfig with
  | none => sess
  | some cfg =>
    let hist := pushHistoryPair sess.store
    let newAnnot : AnnotationConfig :=
      { id := freshId, type := "text", content := "Text", x := 50, y := 50,
        width := 20, height := 5, startTime := time,
        endTime := min (time + 3) (sess.store.clipEnd - sess.store.clipStart),
        style := { fontFamily := "Inter", fontSize := 32, color := "#FFFFFF",
                   backgroundColor := none, bold := true, italic := false,
                   borderRadius := 4 } }
    { sess with
      store :=
      { sess.store with
        editConfig := some { cfg with annotations := cfg.annotations ++ [newAnnot] },
        editHistory := hist.1, editFuture := hist.2, isDirty := true,
        selectedElement := some ⟨"annotation", freshId, none⟩ } }

/-- Embeds `Partial<AnnotationConfig>` for the fields the UI updates. -/
structure AnnotChanges where
  content : Option String := none
  x : Option ℚ := none
  y : Option ℚ := none
  width : Option ℚ := none
  height : Option ℚ := none
  startTime : Option ℚ := none
  endTime : Option ℚ := none
  style : Option AnnotationStyle := none
deriving DecidableEq

/-- Embeds the spread merge `{...a, ...changes}` for annotations. -/
def mergeAnnot (a : AnnotationConfig) (ch : AnnotChanges) : AnnotationConfig :=
  { a with
    content := ch.content.getD a.content, x := ch.x.getD a.x, y := ch.y.getD a.y,
    width := ch.width.getD a.width, height := ch.height.getD a.height,
    startTime := ch.startTime.getD a.startTime, endTime := ch.endTime.getD a.endTime,
    style := ch.style.getD a.style }

/-- Embeds the store action `updateAnnotation(id, changes)` (named
`updateAnnotationAct` here). -/
def updateAnnotationAct (sess : Session) (annId : String) (ch : AnnotChanges) : Session :=
  match sess.store.editConfig with
  | none => sess
  | some cfg =>
    let hist := pushHistoryPair sess.store
    let anns := cfg.annotations.map fun a => if a.id = annId then mergeAnnot a ch else a
    { sess with
      store :=
      { sess.store with
        editConfig := some { cfg with annotations := anns },
        editHistory := hist.1, editFuture := hist.2, isDirty := true } }

/-- Embeds the store action `deleteAnnotation(id)` (named
`deleteAnnotationAct` here): remove the annotation and clear the
selection when the selected element has the same id. -/
def deleteAnnotationAct (sess : Session) (annId : String) : Session :=
  match sess.store.editConfig with
  | none => sess
  | some cfg =>
    let hist := pushHistoryPair sess.store
    let anns := cfg.annotations.filter fun a => a.id ≠ annId
    { sess with
      store :=
      { sess.store with
        editConfig := some { cfg with annotations := anns },
        editHistory := hist.1, editFuture := hist.2, isDirty := true,
        selectedElement :=
          if (sess.store.selectedElement.map SelectedElement.id) = some annId then none
          else sess.store.selectedElement } }

/-! ## Timeline interaction layer (`components/editor/Timeline.tsx`) -/

/-- Embeds `timeToX`: `time * timelineZoom` (pixels per second). -/
def timeToX (timelineZoom t : ℚ) : ℚ := t * timelineZoom

/-- Embeds `xToTime`: `x / timelineZoom`. -/
def xToTime (timelineZoom x : ℚ) : ℚ := x / timelineZoom

/-- Embeds the objects produced by the `segmentBlocks` memo: the segment
spread together with its derived output position. -/
structure SegmentBlock extends SegmentConfig where
  outputStart : ℚ
  outputEnd : ℚ
  width : ℚ
  left : ℚ
deriving DecidableEq

/-- Embeds the `segmentBlocks` loop body with the running `outputOffset`. -/
def segmentBlocksAux : List SegmentConfig → ℚ → ℚ → List SegmentBlock
  | [], _, _ => []
  | seg :: rest, timelineZoom, off =>
    let duration := seg.sourceEnd - seg.sourceStart
    { toSegmentConfig := seg, outputStart := off, outputEnd := off + duration,
      width := timeToX timelineZoom duration, left := timeToX timelineZoom off }
      :: segmentBlocksAux rest timelineZoom (off + duration)

/-- Embeds the `segmentBlocks` memo of `Timeline.tsx`: map each segment to
its output-timeline position, accumulating `outputOffset` in array order. -/
def segmentBlocks (segments : List SegmentConfig) (timelineZoom : ℚ) : List SegmentBlock :=
  segmentBlocksAux segments timelineZoom 0

/-- Embeds `Math.round(p * 1000) / 1000` (JavaScript `Math.round` is
`⌊x + 1/2⌋`, which is Mathlib's `round`). -/
def roundMs (q : ℚ) : ℚ := ((round (q * 1000) : ℤ) : ℚ) / 1000

/-- Embeds the `points` array of the `snapPoints` memo, in push order:
segment output boundaries, zoom start and end positions, and the
integer-second grid up to `totalDuration || clipDuration`. -/
def snapPointsRaw (segments : List SegmentConfig) (zooms : List ZoomConfig)
    (totalDur clipDuration timelineZoom : ℚ) : List ℚ :=
  let blocks := segmentBlocks segments timelineZoom
  let segPoints := blocks.flatMap fun seg => [seg.outputStart, seg.outputEnd]
  let zoomPoints := zooms.flatMap fun z => [z.time, z.time + z.duration]
  let dur := if totalDur = 0 then clipDuration else totalDur
  let gridPoints :=
    if 0 ≤ dur then (List.range (⌊dur⌋.toNat + 1)).map (fun n => (n : ℚ)) else []
  segPoints ++ zoomPoints ++ gridPoints

/-- Embeds the `snapPoints` memo: the raw points rounded to the
millisecond, deduplicated (`new Set`) and sorted ascending (duplicate
removal and numeric sort determine the same final list whichever
occurrence the set keeps). -/
def snapPoints (segments : List SegmentConfig) (zooms : List ZoomConfig)
    (totalDur clipDuration timelineZoom : ℚ) : List ℚ :=
  List.insertionSort (· ≤ ·)
    (((snapPointsRaw segments zooms totalDur clipDuration timelineZoom).map roundMs).dedup)

/-- Embeds the `snapPoints` memo as used by the component: the segment and
zoom lists come from the (possibly null) edit configuration. -/
def timelineSnapPoints (st : EditorState) : List ℚ :=
  let segments := match st.editConfig with
    | none => []
    | some cfg => cfg.segments
  let zooms := match st.editConfig with
    | none => []
    | some cfg => cfg.zooms
  snapPoints segments zooms st.totalDuration (st.clipEnd - st.clipStart) st.timelineZoom

/-- Embeds the result of `snapTime`. -/
structure SnapResult where
  time : ℚ
  snapped : Bool
  snapPoint : Option ℚ
deriving DecidableEq

/-- Embeds the `snapTime` search loop: the accumulator holds the closest
snap point found so far with its distance (`closestDist` starts at
`Infinity`, embedded as the `none` accumulator). -/
def snapFold (threshold t : ℚ) : List ℚ → Option (ℚ × ℚ) → Option (ℚ × ℚ)
  | [], acc => acc
  | sp :: rest, acc =>
    let dist := |t - sp|
    let better : Bool := match acc with
      | none => decide (dist < threshold)
      | some (_, closestDist) => decide (dist < threshold ∧ dist < closestDist)
    snapFold threshold t rest (if better then some (sp, dist) else acc)

/-- Embeds `snapTime(time)`: replace `time` by the nearest snap point
strictly within the 8-pixel-equivalent threshold, if any. -/
def snapTime (points : List ℚ) (timelineZoom t : ℚ) : SnapResult :=
  let threshold := xToTime timelineZoom 8
  match snapFold threshold t points none with
  | some (sp, _) => ⟨sp, true, some sp⟩
  | none => ⟨t, false, none⟩

/-- Embeds the `DragState` union of `Timeline.tsx`. -/
inductive DragState where
  | segmentEdge (segmentId : String) (edge : String) (initialSourceTime : ℚ)
  | zoomMove (zoomId : String) (initialTime : ℚ)
deriving DecidableEq

/-- Embeds the `handleMouseUp` drag-commit handler: with net pointer
displacement `deltaX` (pixels), commit the snapped candidate time to the
store only when `|deltaX| > 2`. -/
def dragMouseUp (sess : Session) (drag : DragState) (deltaX : ℚ) : Session :=
  if |deltaX| > 2 then
    let deltaTime := xToTime sess.store.timelineZoom deltaX
    let pts := timelineSnapPoints sess.store
    match drag with
    | .segmentEdge segId edge initialSourceTime =>
      let rawTime := max 0 (initialSourceTime + deltaTime)
      let snap := snapTime pts sess.store.timelineZoom rawTime
      adjustSegmentEdge sess segId edge snap.time
    | .zoomMove zoomId initialTime =>
      let rawTime := max 0 (initialTime + deltaTime)
      let snap := snapTime pts sess.store.timelineZoom rawTime
      updateZoom sess zoomId { time := some snap.time }
  else sess

/-- Embeds the Delete/Backspace branch of `handleKeyDown` in
`Timeline.tsx`: delete the selected element, guarding segment deletion by
`segs.length > 1` (the caller-side minimum-one-segment invariant). -/
def handleDeleteKey (sess : Session) : Session :=
  match sess.store.selectedElement with
  | none => sess
  | some sel =>
    if sel.type = "segment" then
      match sess.store.editConfig with
      | some cfg =>
        if cfg.segments.length > 1 then selectElement (deleteSegment sess sel.id) none
        else sess
      | none => sess
    else if sel.type = "zoom" then selectElement (deleteZoom sess sel.id) none
    else if sel.type = "annotation" then selectElement (deleteAnnotationAct sess sel.id) none
    else sess

/-! ## Zoom properties sliders (`components/editor/PropertiesPanel.tsx`) -/

/-- Embeds `Math.round(q * 100) / 100`. -/
def round2 (q : ℚ) : ℚ := ((round (q * 100) : ℤ) : ℚ) / 100

/-- Embeds `anchorMin` of the anchor-point sliders:
`Math.round((0.5 / scale) * 100) / 100`. -/
def anchorSliderMin (scale : ℚ) : ℚ := round2 ((1/2) / scale)

/-- Embeds `anchorMax` of the anchor-point sliders:
`Math.round((1 - 0.5 / scale) * 100) / 100`. -/
def anchorSliderMax (scale : ℚ) : ℚ := round2 (1 - (1/2) / scale)

/-- Embeds the anchor-X slider `onChange` of `ZoomProperties`: write the
raw slider value into the zoom and commit through
`updateEditConfigDebounced` (no re-clamp on this path). -/
def zoomAnchorXSlider (sess : Session) (zoomId : String) (v : ℚ) : Session :=
  match sess.store.editConfig with
  | none => sess
  | some cfg =>
    let zooms := cfg.zooms.map fun z => if z.id = zoomId then { z with anchorX := v } else z
    updateEditConfigDebounced sess { zooms := some zooms }

/-- Embeds the anchor-Y slider `onChange` of `ZoomProperties`. -/
def zoomAnchorYSlider (sess : Session) (zoomId : String) (v : ℚ) : Session :=
  match sess.store.editConfig with
  | none => sess
  | some cfg =>
    let zooms := cfg.zooms.map fun z => if z.id = zoomId then { z with anchorY := v } else z
    updateEditConfigDebounced sess { zooms := some zooms }

/-- Embeds the scale slider `onChange` of `ZoomProperties`: write the raw
slider value into the zoom's `scale` and commit through
`updateEditConfigDebounced` (anchors are not re-clamped on this path). -/
def zoomScaleSlider (sess : Session) (zoomId : String) (v : ℚ) : Session :=
  match sess.store.editConfig with
  | none => sess
  | some cfg =>
    let zooms := cfg.zooms.map fun z => if z.id = zoomId then { z with scale := v } else z
    updateEditConfigDebounced sess { zooms := some zooms }

/-! ## Shared helper lemmas and concrete fixtures -/

theorem sliceLast_length_le (l : List α) (n : Nat) : (sliceLast l n).length ≤ n := by
  simp [sliceLast]
  omega

theorem sliceLast_of_length_le (l : List α) (n : Nat) (h : l.length ≤ n) :
    sliceLast l n = l := by
  simp [sliceLast, Nat.sub_eq_zero_of_le h]

theorem sliceLast_concat_getLast (l : List α) (x : α) (n : Nat) (hn : 1 ≤ n) :
    (sliceLast (l ++ [x]) n).getLast? = some x := by
  unfold sliceLast
  have hk : (l ++ [x]).length - n ≤ l.length := by
    simp
    omega
  rw [List.drop_append_of_le_length hk]
  exact List.getLast?_concat _

/-- A concrete caption configuration for witnesses. -/
def baseCaptions : CaptionConfig :=
  ⟨true, "hormozi", "bottom", "medium", "#FFFFFF", "#BFFF0A", none, "Inter", 4,
   "word_by_word", true, []⟩

/-- A concrete edit configuration (one ten-second segment) for witnesses. -/
def baseConfig : EditConfig :=
  { outputRatio := "9:16", segments := [⟨"s1", 0, 10, "none", none⟩], cuts := [],
    zooms := [], reframing := ⟨false, "center", none⟩, captions := baseCaptions,
    transitions := ⟨"none", "none", "hard"⟩,
    audio := ⟨true, false, ⟨false, none, 1, false⟩, ⟨false, false, false, 1⟩⟩,
    overlays := ⟨false, none, none, ⟨false, none, "bottom"⟩⟩,
    captionOverrides := [], annotations := [] }

/-- A concrete store state holding `baseConfig`, for witnesses. -/
def baseStore : EditorState :=
  { clip := none, project := none, sourceVideoUrl := none, proxyVideoUrl := none,
    useProxy := true, sourceVideos := [], transcript := [], clipStart := 0, clipEnd := 10,
    editConfig := some baseConfig, editHistory := [], editFuture := [],
    selectedElement := none, timelineZoom := 50, timelineScroll := 0, isPlaying := false,
    currentTime := 0, totalDuration := 10, isDirty := false, isSaving := false,
    lastSavedAt := none }

/-- A concrete session (no pending gesture) for witnesses. -/
def baseSession : Session := ⟨baseStore, false, none⟩

/-! ## C2: the derived output ranges partition `[0, totalDuration]` -/

/-- Sum of the durations of the segments before index `i` (array order). -/
def durationSumBefore (segments : List SegmentConfig) (i : Nat) : ℚ :=
  ((segments.take i).map fun seg => seg.sourceEnd - seg.sourceStart).sum

theorem segmentBlocksAux_length (segments : List SegmentConfig) (tz off : ℚ) :
    (segmentBlocksAux segments tz off).length = segments.length := by
  induction segments generalizing off with
  | nil => rfl
  | cons seg rest ih => simp [segmentBlocksAux, ih]

theorem segmentBlocksAux_get (segments : List SegmentConfig) (tz off : ℚ) (i : Nat)
    (hi : i < (segmentBlocksAux segments tz off).length) :
    ((segmentBlocksAux segments tz off).get ⟨i, hi⟩).outputStart
        = off + durationSumBefore segments i
    ∧ ((segmentBlocksAux segments tz off).get ⟨i, hi⟩).outputEnd
        = off + durationSumBefore segments (i + 1) := by
  induction segments generalizing off i with
  | nil => simp [segmentBlocksAux] at hi
  | cons seg rest ih =>
    cases i with
    | zero =>
      constructor
      · simp [segmentBlocksAux, durationSumBefore]
      · simp [segmentBlocksAux, durationSumBefore]
    | succ n =>
      have hlen : n < (segmentBlocksAux rest tz (off + (seg.sourceEnd - seg.sourceStart))).length := by
        rw [segmentBlocksAux_length] at hi ⊢
        simpa using Nat.lt_of_succ_lt_succ hi
      have h := ih (off + (seg.sourceEnd - seg.sourceStart)) n hlen
      have hs : durationSumBefore (seg :: rest) (n + 1)
          = (seg.sourceEnd - seg.sourceStart) + durationSumBefore rest n := by
        simp [durationSumBefore]
      have hs2 : durationSumBefore (seg :: rest) (n + 2)
          = (seg.sourceEnd - seg.sourceStart) + durationSumBefore rest (n + 1) := by
        simp [durationSumBefore]
      constructor
      · rw [show ((segmentBlocksAux (seg :: rest) tz off).get ⟨n + 1, hi⟩)
            = (segmentBlocksAux rest tz (off + (seg.sourceEnd - seg.sourceStart))).get ⟨n, hlen⟩
          from rfl, h.1, hs]
        ring
      · rw [show ((segmentBlocksAux (seg :: rest) tz off).get ⟨n + 1, hi⟩)
            = (segmentBlocksAux rest tz (off + (seg.sourceEnd - seg.sourceStart))).get ⟨n, hlen⟩
          from rfl, h.2, hs2]
        ring

/-- C2: for every segment list the derived output ranges form a
contiguous, non-overlapping partition of `[0, totalDuration]` in array
order: the output start of block `i` is the sum of the durations of the
segments before `i`, its output end is the sum through `i`, consecutive
blocks are contiguous, and the durations sum to `totalDuration`.  Since
this holds for every segment list, it holds after every structural edit
(split, delete, adjust-edge). -/
theorem claim2_output_partition (segments : List SegmentConfig) (timelineZoom : ℚ)
    (i : Nat) (hi : i < (segmentBlocks segments timelineZoom).length) :
    ((segmentBlocks segments timelineZoom).get ⟨i, hi⟩).outputStart
        = durationSumBefore segments i
    ∧ ((segmentBlocks segments timelineZoom).get ⟨i, hi⟩).outputEnd
        = durationSumBefore segments (i + 1)
    ∧ (∀ hj : i + 1 < (segmentBlocks segments timelineZoom).length,
        ((segmentBlocks segments timelineZoom).get ⟨i + 1, hj⟩).outputStart
          = ((segmentBlocks segments timelineZoom).get ⟨i, hi⟩).outputEnd)
    ∧ durationSumBefore segments segments.length = totalDuration segments := by
  have h := segmentBlocksAux_get segments timelineZoom 0 i hi
  refine ⟨by simpa [segmentBlocks] using h.1, by simpa [segmentBlocks] using h.2, ?_, ?_⟩
  · intro hj
    have h' := segmentBlocksAux_get segments timelineZoom 0 (i + 1) hj
    have e1 : ((segmentBlocks segments timelineZoom).get ⟨i + 1, hj⟩).outputStart
        = durationSumBefore segments (i + 1) := by simpa [segmentBlocks] using h'.1
    have e2 : ((segmentBlocks segments timelineZoom).get ⟨i, hi⟩).outputEnd
        = durationSumBefore segments (i + 1) := by simpa [segmentBlocks] using h.2
    rw [e1, e2]
  · simp [durationSumBefore, totalDuration]

/-- Concrete segment list for the C2 witness. -/
def segsW : List SegmentConfig := [⟨"s1", 0, 10, "none", none⟩, ⟨"s2", 12, 20, "none", none⟩]

/-- Witness for C2 at the scenario list `[[0,10],[12,20]]`, index 1. -/
theorem claim2_output_partition_witness :
    ((segmentBlocks segsW 50).get ⟨1, by decide⟩).outputStart = durationSumBefore segsW 1
    ∧ ((segmentBlocks segsW 50).get ⟨1, by decide⟩).outputEnd = durationSumBefore segsW 2
    ∧ (∀ hj : 2 < (segmentBlocks segsW 50).length,
        ((segmentBlocks segsW 50).get ⟨2, hj⟩).outputStart
          = ((segmentBlocks segsW 50).get ⟨1, by decide⟩).outputEnd)
    ∧ durationSumBefore segsW segsW.length = totalDuration segsW :=
  claim2_output_partition segsW 50 1 (by decide)

/-! ## C8: deleting the sole remaining segment is a no-op -/

/-- C8: in any state whose edit configuration has exactly one segment,
the Delete-key handler (the caller that enforces the minimum-one-segment
invariant) leaves the session unchanged and the segment count at 1. -/
theorem claim8_delete_sole_segment (sess : Session) (cfg : EditConfig)
    (sel : SelectedElement) (hc : sess.store.editConfig = some cfg)
    (hone : cfg.segments.length = 1) (hsel : sess.store.selectedElement = some sel)
    (htype : sel.type = "segment") :
    handleDeleteKey sess = sess
    ∧ ((handleDeleteKey sess).store.editConfig.map fun c => c.segments.length) = some 1 := by
  have h1 : handleDeleteKey sess = sess := by
    simp [handleDeleteKey, hsel, htype, hc, hone]
  refine ⟨h1, ?_⟩
  rw [h1, hc]
  simp [hone]

/-- Concrete session with the sole segment selected, for the C8 witness. -/
def sessOneSeg : Session :=
  { baseSession with store := { baseStore with selectedElement := some ⟨"segment", "s1", none⟩ } }

/-- Witness for C8 on a one-segment configuration. -/
theorem claim8_delete_sole_segment_witness :
    handleDeleteKey sessOneSeg = sessOneSeg
    ∧ ((handleDeleteKey sessOneSeg).store.editConfig.map fun c => c.segments.length) = some 1 :=
  claim8_delete_sole_segment sessOneSeg baseConfig ⟨"segment", "s1", none⟩ rfl rfl rfl rfl

/-! ## C10: deleting a zoom/annotation and the selection, frame effect -/

/-- All session fields other than the edit configuration, the history
stacks, the dirty flag and the selection agree between `a` and `b`. -/
def FrameUntouched (a b : Session) : Prop :=
  a.store.clip = b.store.clip ∧ a.store.project = b.store.project
  ∧ a.store.sourceVideoUrl = b.store.sourceVideoUrl
  ∧ a.store.proxyVideoUrl = b.store.proxyVideoUrl
  ∧ a.store.useProxy = b.store.useProxy
  ∧ a.store.sourceVideos = b.store.sourceVideos
  ∧ a.store.transcript = b.store.transcript
  ∧ a.store.clipStart = b.store.clipStart
  ∧ a.store.clipEnd = b.store.clipEnd
  ∧ a.store.timelineZoom = b.store.timelineZoom
  ∧ a.store.timelineScroll = b.store.timelineScroll
  ∧ a.store.isPlaying = b.store.isPlaying
  ∧ a.store.currentTime = b.store.currentTime
  ∧ a.store.totalDuration = b.store.totalDuration
  ∧ a.store.isSaving = b.store.isSaving
  ∧ a.store.lastSavedAt = b.store.lastSavedAt
  ∧ a.timerSet = b.timerSet ∧ a.pending = b.pending

/-- C10: deleting a zoom (or an annotation) whose id equals the selected
element's id clears the selection to `none`; deleting one that is not
selected leaves the selection unchanged; and in both cases every store
field other than the edit configuration, the history stacks, the dirty
flag and the selection is untouched. -/
theorem claim10_delete_clears_selection :
    (∀ (sess : Session) (zoomId : String) (cfg : EditConfig),
      sess.store.editConfig = some cfg →
      ((sess.store.selectedElement.map SelectedElement.id = some zoomId →
          (deleteZoom sess zoomId).store.selectedElement = none)
        ∧ (sess.store.selectedElement.map SelectedElement.id ≠ some zoomId →
          (deleteZoom sess zoomId).store.selectedElement = sess.store.selectedElement)
        ∧ FrameUntouched sess (deleteZoom sess zoomId)))
    ∧ (∀ (sess : Session) (annId : String) (cfg : EditConfig),
      sess.store.editConfig = some cfg →
      ((sess.store.selectedElement.map SelectedElement.id = some annId →
          (deleteAnnotationAct sess annId).store.selectedElement = none)
        ∧ (sess.store.selectedElement.map SelectedElement.id ≠ some annId →
          (deleteAnnotationAct sess annId).store.selectedElement
            = sess.store.selectedElement)
        ∧ FrameUntouched sess (deleteAnnotationAct sess annId))) := by
  constructor
  · intro sess zoomId cfg hc
    refine ⟨fun h => by simp [deleteZoom, hc, h], fun h => by simp [deleteZoom, hc, h], ?_⟩
    simp [deleteZoom, hc, FrameUntouched]
  · intro sess annId cfg hc
    refine ⟨fun h => by simp [deleteAnnotationAct, hc, h],
      fun h => by simp [deleteAnnotationAct, hc, h], ?_⟩
    simp [deleteAnnotationAct, hc, FrameUntouched]

/-- Concrete session with a zoom selected, for the C10 witness. -/
def sessZoomSel : Session :=
  { baseSession with store :=
    { baseStore with
      editConfig := some { baseConfig with
        zooms := [⟨"z1", 0, 1/2, 23/20, "ease_in_out", 1/2, 1/2, "manual"⟩] },
      selectedElement := some ⟨"zoom", "z1", none⟩ } }

/-- Witness for C10: deleting the selected zoom `z1` clears the selection
and touches no frame field; deleting a non-selected zoom id keeps the
selection. -/
theorem claim10_delete_clears_selection_witness :
    (deleteZoom sessZoomSel "z1").store.selectedElement = none
    ∧ FrameUntouched sessZoomSel (deleteZoom sessZoomSel "z1")
    ∧ (deleteZoom sessZoomSel "zOther").store.selectedElement
        = sessZoomSel.store.selectedElement :=
  let h := claim10_delete_clears_selection.1 sessZoomSel "z1"
    { baseConfig with zooms := [⟨"z1", 0, 1/2, 23/20, "ease_in_out", 1/2, 1/2, "manual"⟩] }
    rfl
  let h2 := claim10_delete_clears_selection.1 sessZoomSel "zOther"
    { baseConfig with zooms := [⟨"z1", 0, 1/2, 23/20, "ease_in_out", 1/2, 1/2, "manual"⟩] }
    rfl
  ⟨h.1 (by decide), h.2.2, h2.2.1 (by decide)⟩

/-! ## C1: coordinate-mapper round trip -/

/-- Bool test: walking the segments in array order, the first segment
whose closed source range contains `s` contains it with `s` strictly
before its `sourceEnd` (the half-open containment the round trip needs). -/
def firstHitStrict : List SegmentConfig → ℚ → Bool
  | [], _ => true
  | seg :: rest, s =>
    if seg.sourceStart ≤ s ∧ s ≤ seg.sourceEnd then decide (s < seg.sourceEnd)
    else firstHitStrict rest s

theorem sourceToOutputAux_ge (segments : List SegmentConfig) (off s t : ℚ)
    (hpos : ∀ seg ∈ segments, seg.sourceStart < seg.sourceEnd)
    (h : sourceToOutputAux segments off s = some t) : off ≤ t := by
  induction segments generalizing off with
  | nil => simp [sourceToOutputAux] at h
  | cons seg rest ih =>
    by_cases hc : seg.sourceStart ≤ s ∧ s ≤ seg.sourceEnd
    · rw [sourceToOutputAux, if_pos hc] at h
      have ht : t = off + (s - seg.sourceStart) := by
        exact (Option.some_inj.mp h).symm
      rw [ht]
      linarith [hc.1]
    · rw [sourceToOutputAux, if_neg hc] at h
      have hrest : ∀ sg ∈ rest, sg.sourceStart < sg.sourceEnd := by
        intro sg hsg
        exact hpos sg (List.mem_cons_of_mem _ hsg)
      have hd : seg.sourceStart < seg.sourceEnd := hpos seg (List.mem_cons_self _ _)
      have := ih (off + (seg.sourceEnd - seg.sourceStart)) hrest h
      linarith

theorem outputToSource_of_sourceToOutputAux (segments : List SegmentConfig) (off s t : ℚ)
    (hpos : ∀ seg ∈ segments, seg.sourceStart < seg.sourceEnd)
    (hstrict : firstHitStrict segments s = true)
    (h : sourceToOutputAux segments off s = some t) :
    outputToSourceAux segments off t = some s := by
  induction segments generalizing off with
  | nil => simp [sourceToOutputAux] at h
  | cons seg rest ih =>
    by_cases hc : seg.sourceStart ≤ s ∧ s ≤ seg.sourceEnd
    · rw [sourceToOutputAux, if_pos hc] at h
      have ht : t = off + (s - seg.sourceStart) := (Option.some_inj.mp h).symm
      have hlt : s < seg.sourceEnd := by
        rw [firstHitStrict, if_pos hc] at hstrict
        exact of_decide_eq_true hstrict
      have hrange : off ≤ t ∧ t < off + (seg.sourceEnd - seg.sourceStart) := by
        constructor
        · rw [ht]
          linarith [hc.1]
        · rw [ht]
          linarith
      show (if off ≤ t ∧ t < off + (seg.sourceEnd - seg.sourceStart)
        then some (seg.sourceStart + (t - off))
        else outputToSourceAux rest (off + (seg.sourceEnd - seg.sourceStart)) t) = some s
      rw [if_pos hrange, ht]
      congr 1
      ring
    · rw [sourceToOutputAux, if_neg hc] at h
      have hstrict' : firstHitStrict rest s = true := by
        rwa [firstHitStrict, if_neg hc] at hstrict
      have hrest : ∀ sg ∈ rest, sg.sourceStart < sg.sourceEnd := by
        intro sg hsg
        exact hpos sg (List.mem_cons_of_mem _ hsg)
      have hge : off + (seg.sourceEnd - seg.sourceStart) ≤ t :=
        sourceToOutputAux_ge rest _ s t hrest h
      show (if off ≤ t ∧ t < off + (seg.sourceEnd - seg.sourceStart)
        then some (seg.sourceStart + (t - off))
        else outputToSourceAux rest (off + (seg.sourceEnd - seg.sourceStart)) t) = some s
      rw [if_neg (by
        push_neg
        intro _
        linarith)]
      exact ih (off + (seg.sourceEnd - seg.sourceStart)) hrest hstrict' h

/-- C1 (amended): for every segment list satisfying the segment
invariant and every source time `s` that the mapper locates strictly
before the end of the first segment (in array order) whose closed source
range contains it, the two conversions are exact inverses:
`sourceToOutput (outputToSource (sourceToOutput s)) = sourceToOutput s`,
in particular within the claimed 1&thinsp;ms epsilon.  The strictness
hypothesis is forced by the counterexample `claim1_roundtrip_cex`. -/
theorem claim1_roundtrip (segments : List SegmentConfig) (s : ℚ)
    (hpos : ∀ seg ∈ segments, seg.sourceStart < seg.sourceEnd)
    (hkept : (sourceToOutputAux segments 0 s).isSome = true)
    (hstrict : firstHitStrict segments s = true) :
    |sourceToOutput segments (outputToSource segments (sourceToOutput segments s))
      - sourceToOutput segments s| ≤ 1/1000 := by
  obtain ⟨t, ht⟩ := Option.isSome_iff_exists.mp hkept
  have h1 : sourceToOutput segments s = t := by
    simp [sourceToOutput, ht]
  have h2 : outputToSource segments t = s := by
    have := outputToSource_of_sourceToOutputAux segments 0 s t hpos hstrict ht
    simp [outputToSource, this]
  rw [h1, h2, h1]
  simp

/-- Witness for C1 on the scenario list `[[0,10],[12,20]]` at `s = 13`. -/
theorem claim1_roundtrip_witness :
    |sourceToOutput segsW (outputToSource segsW (sourceToOutput segsW 13))
      - sourceToOutput segsW 13| ≤ 1/1000 :=
  claim1_roundtrip segsW 13 (by decide) (by decide) (by decide)

/-- The overlapping segment list of the C1 counterexample. -/
def segsCex : List SegmentConfig := [⟨"a", 0, 10, "none", none⟩, ⟨"b", 5, 15, "none", none⟩]

/-- C1 counterexample: the segment list `[[0,10],[5,15]]` satisfies the
segment invariant and `s = 10` lies strictly inside the kept segment
`[5,15]`, yet the round trip is off by 5 seconds: `sourceToOutput 10 = 10`
(via the first segment, whose closed range also contains 10),
`outputToSource 10 = 5` (the second segment's output range), and
`sourceToOutput 5 = 5`, which is farther than 1&thinsp;ms from 10. -/
theorem claim1_roundtrip_cex :
    ((segsCex.get ⟨0, by decide⟩).sourceStart < (segsCex.get ⟨0, by decide⟩).sourceEnd)
    ∧ ((segsCex.get ⟨1, by decide⟩).sourceStart < (segsCex.get ⟨1, by decide⟩).sourceEnd)
    ∧ ((segsCex.get ⟨1, by decide⟩).sourceStart < 10
      ∧ (10 : ℚ) < (segsCex.get ⟨1, by decide⟩).sourceEnd)
    ∧ sourceToOutput segsCex 10 = 10
    ∧ outputToSource segsCex 10 = 5
    ∧ sourceToOutput segsCex 5 = 5
    ∧ ¬ (|sourceToOutput segsCex (outputToSource segsCex (sourceToOutput segsCex 10))
          - sourceToOutput segsCex 10| ≤ 1/1000) := by
  have h1 : sourceToOutput segsCex 10 = 10 := by
    norm_num [sourceToOutput, sourceToOutputAux, segsCex]
  have h2 : outputToSource segsCex 10 = 5 := by
    norm_num [outputToSource, outputToSourceAux, segsCex]
  have h3 : sourceToOutput segsCex 5 = 5 := by
    norm_num [sourceToOutput, sourceToOutputAux, segsCex]
  refine ⟨by decide, by decide, ⟨by decide, by decide⟩, h1, h2, h3, ?_⟩
  rw [h1, h2, h3]
  norm_num

/-! ## C7: zoom anchor clamp -/

theorem clampZoomAnchor_bounds (anchorX anchorY scale : ℚ)
    (h1 : 1 < scale) (_h2 : scale ≤ 2) :
    (1/2)/scale ≤ (clampZoomAnchor anchorX anchorY scale).1
    ∧ (clampZoomAnchor anchorX anchorY scale).1 ≤ 1 - (1/2)/scale
    ∧ (1/2)/scale ≤ (clampZoomAnchor anchorX anchorY scale).2
    ∧ (clampZoomAnchor anchorX anchorY scale).2 ≤ 1 - (1/2)/scale := by
  have hpos : (0 : ℚ) < scale := by linarith
  have hhalf : (1/2)/scale < 1/2 := by
    rw [div_lt_iff₀ hpos]
    nlinarith
  have hh : (1/2)/scale ≤ 1 - (1/2)/scale := by linarith
  simp only [clampZoomAnchor]
  exact ⟨le_min (le_max_right _ _) hh, min_le_right _ _,
    le_min (le_max_right _ _) hh, min_le_right _ _⟩

/-- C7 (amended): the anchor clamp is applied on the `addZoom` and
`updateZoom` paths: after either operation every zoom of the resulting
configuration is either carried over unchanged or satisfies
`0.5/scale ≤ anchor ≤ 1 - 0.5/scale` (given scale in `(1,2]`; the zoom
`addZoom` creates satisfies it outright).  The continuous slider
(debounced) anchor and scale updates commit through
`updateEditConfigDebounced` without re-clamping, so the claim's "every
create/update path" does not hold there (see `claim7_anchor_clamp_cex`). -/
theorem claim7_anchor_clamp :
    (∀ (anchorX anchorY scale : ℚ), 1 < scale → scale ≤ 2 →
      (1/2)/scale ≤ (clampZoomAnchor anchorX anchorY scale).1
      ∧ (clampZoomAnchor anchorX anchorY scale).1 ≤ 1 - (1/2)/scale
      ∧ (1/2)/scale ≤ (clampZoomAnchor anchorX anchorY scale).2
      ∧ (clampZoomAnchor anchorX anchorY scale).2 ≤ 1 - (1/2)/scale)
    ∧ (∀ (sess : Session) (zoomId : String) (ch : ZoomChanges) (cfg cfg' : EditConfig),
      sess.store.editConfig = some cfg →
      (updateZoom sess zoomId ch).store.editConfig = some cfg' →
      ∀ z' ∈ cfg'.zooms, z' ∈ cfg.zooms ∨
        (1 < z'.scale → z'.scale ≤ 2 →
          (1/2)/z'.scale ≤ z'.anchorX ∧ z'.anchorX ≤ 1 - (1/2)/z'.scale
          ∧ (1/2)/z'.scale ≤ z'.anchorY ∧ z'.anchorY ≤ 1 - (1/2)/z'.scale))
    ∧ (∀ (sess : Session) (time : ℚ) (freshId : String) (cfg cfg' : EditConfig),
      sess.store.editConfig = some cfg →
      (addZoom sess time freshId).store.editConfig = some cfg' →
      ∀ z' ∈ cfg'.zooms, z' ∈ cfg.zooms ∨
        ((1/2)/z'.scale ≤ z'.anchorX ∧ z'.anchorX ≤ 1 - (1/2)/z'.scale
          ∧ (1/2)/z'.scale ≤ z'.anchorY ∧ z'.anchorY ≤ 1 - (1/2)/z'.scale)) := by
  refine ⟨clampZoomAnchor_bounds, ?_, ?_⟩
  · intro sess zoomId ch cfg cfg' hc h' z' hz'
    rw [updateZoom] at h'
    rw [hc] at h'
    simp only [Option.some_inj] at h'
    rw [← h'] at hz'
    simp only [List.mem_map] at hz'
    obtain ⟨z0, hz0, hf⟩ := hz'
    by_cases hid : z0.id ≠ zoomId
    · left
      rw [if_pos hid] at hf
      rwa [← hf]
    · right
      rw [if_neg hid] at hf
      intro hs1 hs2
      have hb := clampZoomAnchor_bounds (mergeZoom z0 ch).anchorX (mergeZoom z0 ch).anchorY
        (mergeZoom z0 ch).scale (by rw [← hf] at hs1; exact hs1) (by rw [← hf] at hs2; exact hs2)
      rw [← hf]
      exact hb
  · intro sess time freshId cfg cfg' hc h' z' hz'
    rw [addZoom] at h'
    rw [hc] at h'
    simp only [Option.some_inj] at h'
    rw [← h'] at hz'
    rw [List.mem_append] at hz'
    rcases hz' with hz' | hz'
    · left
      exact hz'
    · right
      simp only [List.mem_singleton] at hz'
      rw [hz']
      exact clampZoomAnchor_bounds (1/2) (2/5) (23/20) (by norm_num) (by norm_num)

/-- Witness for C7 at scale 1.5 and requested anchors `(0.1, 0.9)` (the
spec scenario: clamped into `[1/3, 2/3]`). -/
theorem claim7_anchor_clamp_witness :
    ((1:ℚ)/2)/(3/2) ≤ (clampZoomAnchor (1/10) (9/10) (3/2)).1
    ∧ (clampZoomAnchor (1/10) (9/10) (3/2)).1 ≤ 1 - ((1:ℚ)/2)/(3/2)
    ∧ ((1:ℚ)/2)/(3/2) ≤ (clampZoomAnchor (1/10) (9/10) (3/2)).2
    ∧ (clampZoomAnchor (1/10) (9/10) (3/2)).2 ≤ 1 - ((1:ℚ)/2)/(3/2) :=
  claim7_anchor_clamp.1 (1/10) (9/10) (3/2) (by norm_num) (by norm_num)

/-- Session holding one zoom at scale 1.5 with valid anchors, for the C7
counterexample. -/
def sessZoom15 : Session :=
  { baseSession with store := { baseStore with editConfig := some { baseConfig with
      zooms := [⟨"z1", 0, 1/2, 3/2, "ease_in_out", 2/5, 1/2, "manual"⟩] } } }

/-- C7 counterexample: with scale 1.5 the UI slider offers
`anchorMin = round(100·(0.5/1.5))/100 = 0.33`; dragging the anchor-X
slider there commits `anchorX = 0.33` through the debounced path, which
does not re-clamp, and `0.33 < 1/3 = 0.5/scale` violates the claimed
invariant on a create/update path. -/
theorem claim7_anchor_clamp_cex :
    (1 : ℚ) < 3/2 ∧ (3/2 : ℚ) ≤ 2
    ∧ anchorSliderMin (3/2) = 33/100 ∧ anchorSliderMax (3/2) = 67/100
    ∧ ((zoomAnchorXSlider sessZoom15 "z1" (33/100)).store.editConfig.map
        fun c => c.zooms.map ZoomConfig.anchorX) = some [33/100]
    ∧ ((zoomAnchorXSlider sessZoom15 "z1" (33/100)).store.editConfig.map
        fun c => c.zooms.map ZoomConfig.scale) = some [3/2]
    ∧ ¬ ((1/2)/(3/2 : ℚ) ≤ 33/100) := by
  have hmin : anchorSliderMin (3/2) = 33/100 := by
    have : round (((1:ℚ)/2)/(3/2) * 100) = 33 := by
      rw [round_eq]
      norm_num
    rw [anchorSliderMin, round2, this]
    norm_num
  have hmax : anchorSliderMax (3/2) = 67/100 := by
    have : round ((1 - ((1:ℚ)/2)/(3/2)) * 100) = 67 := by
      rw [round_eq]
      norm_num
    rw [anchorSliderMax, round2, this]
    norm_num
  refine ⟨by norm_num, by norm_num, hmin, hmax, ?_, ?_, by norm_num⟩
  · simp [zoomAnchorXSlider, sessZoom15, baseStore, updateEditConfigDebounced,
      applyChanges, mergeChanges]
  · simp [zoomAnchorXSlider, sessZoom15, baseStore, updateEditConfigDebounced,
      applyChanges, mergeChanges]

/-! ## C5: pending gesture commits under undo and redo -/

theorem undoFlush_of_pending_none (S : Session) (hp : S.pending = none) :
    undoFlush S = { S with timerSet := false } := by
  simp only [undoFlush, hp]

theorem undoFlush_of_pending (S : Session) (snap : EditConfig)
    (hp : S.pending = some snap) :
    undoFlush S = { store := { S.store with
      editHistory := sliceLast (S.store.editHistory ++ [snap]) MAX_HISTORY,
      editFuture := [] }, timerSet := false, pending := none } := by
  simp only [undoFlush, hp]

/-- C5 (amended): if a debounced gesture commit is pending when `undo`
runs, the pending pre-gesture snapshot is flushed into the undo history
before the stack is popped — the pop therefore restores the pre-gesture
snapshot and pushes the mid-gesture configuration onto the redo stack,
so the gesture's edit is never lost to a mid-undo race.  `redo`, by
contrast, is not symmetric: it discards a pending gesture commit
(clearing the timer and the snapshot) without flushing it, and then pops
the redo stack normally (see `claim5_pending_flush_cex`). -/
theorem claim5_pending_flush (sess : Session) (snap cfg : EditConfig)
    (hp : sess.pending = some snap) (hc : sess.store.editConfig = some cfg) :
    (undoFlush sess).store.editHistory
        = sliceLast (sess.store.editHistory ++ [snap]) MAX_HISTORY
    ∧ (undo sess).store.editConfig = some snap
    ∧ (undo sess).store.editFuture = [cfg]
    ∧ (undo sess).pending = none
    ∧ (sess.timerSet = true →
        redo sess = redoPop { sess with timerSet := false, pending := none }) := by
  have hflush := undoFlush_of_pending sess snap hp
  have hlast : (sliceLast (sess.store.editHistory ++ [snap]) MAX_HISTORY).getLast?
      = some snap :=
    sliceLast_concat_getLast _ _ _ (by norm_num [MAX_HISTORY])
  have hundo : undo sess = { store := { sess.store with
      editConfig := some snap,
      editHistory := (sliceLast (sess.store.editHistory ++ [snap]) MAX_HISTORY).dropLast,
      editFuture := [cfg], isDirty := true }, timerSet := false, pending := none } := by
    rw [undo, hflush]
    simp only [undoPop, hc, hlast]
  refine ⟨by rw [hflush], by rw [hundo], by rw [hundo], by rw [hundo], ?_⟩
  intro ht
  rw [redo, redoClear, if_pos ht]

/-- The pending pre-gesture snapshot of the C5 fixtures. -/
def snapW : EditConfig := { baseConfig with outputRatio := "1:1" }

/-- A redo-stack entry for the C5 fixtures. -/
def futW : EditConfig := { baseConfig with outputRatio := "4:5" }

/-- Session with a pending gesture snapshot, an armed timer and a
non-empty redo stack, for C5. -/
def sessPending : Session :=
  { store := { baseStore with editFuture := [futW] }, timerSet := true,
    pending := some snapW }

/-- Witness for C5 on `sessPending`. -/
theorem claim5_pending_flush_witness :
    (undoFlush sessPending).store.editHistory
        = sliceLast (sessPending.store.editHistory ++ [snapW]) MAX_HISTORY
    ∧ (undo sessPending).store.editConfig = some snapW
    ∧ (undo sessPending).store.editFuture = [baseConfig]
    ∧ (undo sessPending).pending = none
    ∧ (sessPending.timerSet = true →
        redo sessPending = redoPop { sessPending with timerSet := false, pending := none }) :=
  claim5_pending_flush sessPending snapW baseConfig rfl rfl

/-- C5 counterexample: with a pending gesture snapshot and a non-empty
redo stack, `redo` does not flush the snapshot into the undo history —
the snapshot is discarded, and the new history holds only the replaced
current configuration. -/
theorem claim5_pending_flush_cex :
    sessPending.pending = some snapW
    ∧ sessPending.store.editFuture ≠ []
    ∧ (redo sessPending).store.editHistory = [baseConfig]
    ∧ ¬ (snapW ∈ (redo sessPending).store.editHistory)
    ∧ (redo sessPending).pending = none := by
  refine ⟨rfl, by decide, ?_, ?_, ?_⟩
  · simp [redo, redoClear, redoPop, sessPending, baseStore]
  · simp [redo, redoClear, redoPop, sessPending, baseStore]
    decide
  · simp [redo, redoClear, redoPop, sessPending, baseStore]

/-! ## C3: debounced gesture coalescing -/

/-- One gesture's rapid calls to `updateEditConfigDebounced`, all landing
within a single quiet-period window (so the timer fires only after the
last one). -/
def debounceCalls (sess : Session) (calls : List EditConfigChanges) : Session :=
  calls.foldl updateEditConfigDebounced sess

/-- The configuration obtained by applying each change in turn (the
store's merge plus cut sync, per call). -/
def foldChanges (cfg : EditConfig) (calls : List EditConfigChanges)
    (clipDuration : ℚ) : EditConfig :=
  calls.foldl (fun c ch => applyChanges c ch clipDuration) cfg

theorem updateEditConfigDebounced_of_pending (sess : Session) (ch : EditConfigChanges)
    (snap cfg : EditConfig) (hp : sess.pending = some snap)
    (hc : sess.store.editConfig = some cfg) :
    updateEditConfigDebounced sess ch
      = { store := { sess.store with
            editConfig := some
              (applyChanges cfg ch (sess.store.clipEnd - sess.store.clipStart)),
            isDirty := true },
          timerSet := true, pending := some snap } := by
  simp only [updateEditConfigDebounced, hp, hc]

theorem updateEditConfigDebounced_first (sess : Session) (ch : EditConfigChanges)
    (cfg : EditConfig) (hp : sess.pending = none)
    (hc : sess.store.editConfig = some cfg) :
    updateEditConfigDebounced sess ch
      = { store := { sess.store with
            editConfig := some
              (applyChanges cfg ch (sess.store.clipEnd - sess.store.clipStart)),
            isDirty := true },
          timerSet := true, pending := some cfg } := by
  simp only [updateEditConfigDebounced, hp, hc]

theorem debounceCalls_spec (calls : List EditConfigChanges) (sess : Session)
    (snap cfg : EditConfig) (hp : sess.pending = some snap)
    (hc : sess.store.editConfig = some cfg) :
    (debounceCalls sess calls).pending = some snap
    ∧ (debounceCalls sess calls).store.editConfig
        = some (foldChanges cfg calls (sess.store.clipEnd - sess.store.clipStart))
    ∧ (debounceCalls sess calls).store.editHistory = sess.store.editHistory
    ∧ (debounceCalls sess calls).store.editFuture = sess.store.editFuture
    ∧ (debounceCalls sess calls).store.clipStart = sess.store.clipStart
    ∧ (debounceCalls sess calls).store.clipEnd = sess.store.clipEnd := by
  induction calls generalizing sess cfg with
  | nil =>
    refine ⟨hp, ?_, rfl, rfl, rfl, rfl⟩
    simpa [debounceCalls, foldChanges] using hc
  | cons ch rest ih =>
    have hstep := updateEditConfigDebounced_of_pending sess ch snap cfg hp hc
    have hrec := ih (updateEditConfigDebounced sess ch)
      (applyChanges cfg ch (sess.store.clipEnd - sess.store.clipStart))
      (by rw [hstep]) (by rw [hstep])
    have hfold : foldChanges cfg (ch :: rest) (sess.store.clipEnd - sess.store.clipStart)
        = foldChanges (applyChanges cfg ch (sess.store.clipEnd - sess.store.clipStart)) rest
            (sess.store.clipEnd - sess.store.clipStart) := by
      simp [foldChanges]
    have hclip1 : (updateEditConfigDebounced sess ch).store.clipStart
        = sess.store.clipStart := by rw [hstep]
    have hclip2 : (updateEditConfigDebounced sess ch).store.clipEnd
        = sess.store.clipEnd := by rw [hstep]
    have hcalls : debounceCalls sess (ch :: rest)
        = debounceCalls (updateEditConfigDebounced sess ch) rest := by
      simp [debounceCalls]
    rw [hcalls, hfold]
    refine ⟨hrec.1, ?_, ?_, ?_, ?_, ?_⟩
    · rw [hrec.2.1, hclip1, hclip2]
    · rw [hrec.2.2.1, hstep]
    · rw [hrec.2.2.2.1, hstep]
    · rw [hrec.2.2.2.2.1, hstep]
    · rw [hrec.2.2.2.2.2, hstep]

/-- C3: any number of rapid `updateEditConfigDebounced` calls within one
quiet-period window, followed by the timer firing, push exactly one new
undo-stack entry — the configuration as it was before the first call —
clear the redo stack and the pending slot, and leave the configuration
at the result of applying every intermediate value in turn (each call
having applied its value immediately). -/
theorem claim3_gesture_coalescing (sess : Session) (cfg : EditConfig)
    (calls : List EditConfigChanges) (hp : sess.pending = none)
    (hc : sess.store.editConfig = some cfg) (hne : calls ≠ []) :
    ((fireDebounce (debounceCalls sess calls)).store.editHistory
        = sliceLast (sess.store.editHistory ++ [cfg]) MAX_HISTORY)
    ∧ ((fireDebounce (debounceCalls sess calls)).store.editHistory.getLast? = some cfg)
    ∧ ((fireDebounce (debounceCalls sess calls)).store.editFuture = [])
    ∧ ((fireDebounce (debounceCalls sess calls)).pending = none)
    ∧ ((fireDebounce (debounceCalls sess calls)).store.editConfig
        = some (foldChanges cfg calls (sess.store.clipEnd - sess.store.clipStart)))
    ∧ (∀ n, (debounceCalls sess (calls.take n)).store.editConfig
        = some (foldChanges cfg (calls.take n)
            (sess.store.clipEnd - sess.store.clipStart))) := by
  obtain ⟨ch, rest, rfl⟩ : ∃ ch rest, calls = ch :: rest := by
    cases calls with
    | nil => exact absurd rfl hne
    | cons ch rest => exact ⟨ch, rest, rfl⟩
  have hstep := updateEditConfigDebounced_first sess ch cfg hp hc
  have hspec := debounceCalls_spec rest (updateEditConfigDebounced sess ch) cfg
    (applyChanges cfg ch (sess.store.clipEnd - sess.store.clipStart))
    (by rw [hstep]) (by rw [hstep])
  have hcalls : debounceCalls sess (ch :: rest)
      = debounceCalls (updateEditConfigDebounced sess ch) rest := by
    simp [debounceCalls]
  have hclip1 : (updateEditConfigDebounced sess ch).store.clipStart
      = sess.store.clipStart := by rw [hstep]
  have hclip2 : (updateEditConfigDebounced sess ch).store.clipEnd
      = sess.store.clipEnd := by rw [hstep]
  have hhist : (debounceCalls sess (ch :: rest)).store.editHistory
      = sess.store.editHistory := by
    rw [hcalls, hspec.2.2.1, hstep]
  have hcfg' : (debounceCalls sess (ch :: rest)).store.editConfig
      = some (foldChanges cfg (ch :: rest) (sess.store.clipEnd - sess.store.clipStart)) := by
    rw [hcalls, hspec.2.1, hclip1, hclip2]
    simp [foldChanges]
  have hpend : (debounceCalls sess (ch :: rest)).pending = some cfg := by
    rw [hcalls, hspec.1]
  have hfire : fireDebounce (debounceCalls sess (ch :: rest))
      = { store := { (debounceCalls sess (ch :: rest)).store with
            editHistory := sliceLast
              ((debounceCalls sess (ch :: rest)).store.editHistory ++ [cfg]) MAX_HISTORY,
            editFuture := [] },
          timerSet := false, pending := none } := by
    rw [fireDebounce, hpend]
    rw [show (debounceCalls sess (ch :: rest)).store.editConfig
      = some (foldChanges cfg (ch :: rest) (sess.store.clipEnd - sess.store.clipStart))
      from hcfg']
  refine ⟨?_, ?_, ?_, ?_, ?_, ?_⟩
  · rw [hfire]
    simp only [hhist]
  · rw [hfire]
    simp only [hhist]
    exact sliceLast_concat_getLast _ _ _ (by norm_num [MAX_HISTORY])
  · rw [hfire]
  · rw [hfire]
  · rw [hfire]
    simpa using hcfg'
  · intro n
    cases n with
    | zero => simpa [debounceCalls, foldChanges] using hc
    | succ m =>
      have htake : (ch :: rest).take (m + 1) = ch :: rest.take m := by
        simp
      rw [htake]
      have hspec' := debounceCalls_spec (rest.take m) (updateEditConfigDebounced sess ch) cfg
        (applyChanges cfg ch (sess.store.clipEnd - sess.store.clipStart))
        (by rw [hstep]) (by rw [hstep])
      have : debounceCalls sess (ch :: rest.take m)
          = debounceCalls (updateEditConfigDebounced sess ch) (rest.take m) := by
        simp [debounceCalls]
      rw [this, hspec'.2.1, hclip1, hclip2]
      simp [foldChanges]

/-- Two concrete gesture calls for the C3 witness. -/
def callsW : List EditConfigChanges :=
  [{ outputRatio := some "1:1" }, { outputRatio := some "4:5" }]

/-- Witness for C3: two rapid debounced calls on `baseSession`, then the
timer fires: one history entry equal to `baseConfig`, redo stack and
pending slot cleared, both intermediate values applied. -/
theorem claim3_gesture_coalescing_witness :
    ((fireDebounce (debounceCalls baseSession callsW)).store.editHistory
        = sliceLast (baseSession.store.editHistory ++ [baseConfig]) MAX_HISTORY)
    ∧ ((fireDebounce (debounceCalls baseSession callsW)).store.editHistory.getLast?
        = some baseConfig)
    ∧ ((fireDebounce (debounceCalls baseSession callsW)).store.editFuture = [])
    ∧ ((fireDebounce (debounceCalls baseSession callsW)).pending = none)
    ∧ ((fireDebounce (debounceCalls baseSession callsW)).store.editConfig
        = some (foldChanges baseConfig callsW
            (baseSession.store.clipEnd - baseSession.store.clipStart)))
    ∧ (∀ n, (debounceCalls baseSession (callsW.take n)).store.editConfig
        = some (foldChanges baseConfig (callsW.take n)
            (baseSession.store.clipEnd - baseSession.store.clipStart))) :=
  claim3_gesture_coalescing baseSession baseConfig callsW rfl rfl (by decide)

/-! ## C4: undo/redo history integrity for discrete edits -/

/-- A sequence of discrete (immediate-commit) edits. -/
def discreteEdits (sess : Session) (calls : List EditConfigChanges) : Session :=
  calls.foldl updateEditConfig sess

/-- `n` invocations of `undo`. -/
def undoN (n : Nat) (sess : Session) : Session := undo^[n] sess

/-- `n` invocations of `redo`. -/
def redoN (n : Nat) (sess : Session) : Session := redo^[n] sess

/-- The configurations after each successive edit (the redo chain the
undos leave behind). -/
def postConfigs (cfg : EditConfig) (calls : List EditConfigChanges) (d : ℚ) :
    List EditConfig :=
  match calls with
  | [] => []
  | ch :: rest => applyChanges cfg ch d :: postConfigs (applyChanges cfg ch d) rest d

theorem updateEditConfig_eq (sess : Session) (ch : EditConfigChanges) (cfg : EditConfig)
    (hc : sess.store.editConfig = some cfg)
    (hcap : sess.store.editHistory.length + 1 ≤ MAX_HISTORY) :
    updateEditConfig sess ch
      = { sess with store := { sess.store with
            editConfig := some
              (applyChanges cfg ch (sess.store.clipEnd - sess.store.clipStart)),
            editHistory := sess.store.editHistory ++ [cfg],
            editFuture := [], isDirty := true } } := by
  have hpush : pushHistoryPair sess.store = (sess.store.editHistory ++ [cfg], []) := by
    simp only [pushHistoryPair, hc]
    rw [sliceLast_of_length_le _ _ (by simpa using hcap)]
  simp only [updateEditConfig, hc, hpush]

theorem undo_pop_components (S : Session) (cfgS prev : EditConfig) (h : List EditConfig)
    (hp : S.pending = none) (hcS : S.store.editConfig = some cfgS)
    (hh : S.store.editHistory = h ++ [prev]) :
    undo S
      = { S with timerSet := false, store := { S.store with
            editConfig := some prev, editHistory := h,
            editFuture := cfgS :: S.store.editFuture, isDirty := true } } := by
  rw [undo, undoFlush_of_pending_none S hp]
  have hlast : ({ S with timerSet := false } : Session).store.editHistory.getLast?
      = some prev := by
    simp [hh]
  have hdrop : ({ S with timerSet := false } : Session).store.editHistory.dropLast = h := by
    simp [hh]
  simp only [undoPop, hcS, hlast, hdrop]

theorem undo_discrete_cancel (calls : List EditConfigChanges) (sess : Session)
    (cfg : EditConfig) (hp : sess.pending = none) (ht : sess.timerSet = false)
    (hc : sess.store.editConfig = some cfg)
    (hcap : sess.store.editHistory.length + calls.length ≤ MAX_HISTORY)
    (hne : calls ≠ []) :
    (undoN calls.length (discreteEdits sess calls)).pending = none
    ∧ (undoN calls.length (discreteEdits sess calls)).timerSet = false
    ∧ (undoN calls.length (discreteEdits sess calls)).store.editConfig = some cfg
    ∧ (undoN calls.length (discreteEdits sess calls)).store.editHistory
        = sess.store.editHistory
    ∧ (undoN calls.length (discreteEdits sess calls)).store.editFuture
        = postConfigs cfg calls (sess.store.clipEnd - sess.store.clipStart) := by
  induction calls generalizing sess cfg with
  | nil => exact absurd rfl hne
  | cons ch rest ih =>
    have hstep := updateEditConfig_eq sess ch cfg hc (by simp at hcap; omega)
    have hfold : discreteEdits sess (ch :: rest)
        = discreteEdits (updateEditConfig sess ch) rest := by
      simp [discreteEdits]
    cases rest with
    | nil =>
      have hone : undoN 1 (discreteEdits sess [ch]) = undo (updateEditConfig sess ch) := by
        simp [undoN, discreteEdits]
      have hcomp := undo_pop_components (updateEditConfig sess ch)
        (applyChanges cfg ch (sess.store.clipEnd - sess.store.clipStart)) cfg
        sess.store.editHistory
        (by rw [hstep]; exact hp) (by rw [hstep]) (by rw [hstep])
      rw [show ([ch] : List EditConfigChanges).length = 1 from rfl, hone, hcomp, hstep]
      refine ⟨hp, rfl, rfl, rfl, ?_⟩
      simp [postConfigs]
    | cons ch2 rest2 =>
      have hlen : (ch :: ch2 :: rest2).length = (ch2 :: rest2).length + 1 := rfl
      have hiter : undoN ((ch2 :: rest2).length + 1) (discreteEdits sess (ch :: ch2 :: rest2))
          = undo (undoN (ch2 :: rest2).length
              (discreteEdits (updateEditConfig sess ch) (ch2 :: rest2))) := by
        rw [hfold, undoN, undoN, Function.iterate_succ_apply']
      have hrec := ih (updateEditConfig sess ch)
        (applyChanges cfg ch (sess.store.clipEnd - sess.store.clipStart))
        (by rw [hstep]; exact hp) (by rw [hstep]; exact ht) (by rw [hstep])
        (by rw [hstep]; simp at hcap ⊢; omega) (by simp)
      set S := undoN (ch2 :: rest2).length
        (discreteEdits (updateEditConfig sess ch) (ch2 :: rest2)) with hS
      have hSh : S.store.editHistory = sess.store.editHistory ++ [cfg] := by
        rw [hrec.2.2.2.1, hstep]
      have hcomp := undo_pop_components S
        (applyChanges cfg ch (sess.store.clipEnd - sess.store.clipStart)) cfg
        sess.store.editHistory hrec.1 hrec.2.2.1 hSh
      have hSf : S.store.editFuture
          = postConfigs (applyChanges cfg ch (sess.store.clipEnd - sess.store.clipStart))
              (ch2 :: rest2)
              ((updateEditConfig sess ch).store.clipEnd
                - (updateEditConfig sess ch).store.clipStart) := hrec.2.2.2.2
      have hclip : (updateEditConfig sess ch).store.clipEnd
            - (updateEditConfig sess ch).store.clipStart
          = sess.store.clipEnd - sess.store.clipStart := by
        rw [hstep]
      rw [hlen, hiter, hcomp]
      refine ⟨hrec.1, rfl, rfl, rfl, ?_⟩
      rw [hSf, hclip]
      simp [postConfigs]

theorem redo_postConfigs (calls : List EditConfigChanges) (st : Session)
    (cfg : EditConfig) (d : ℚ) (hp : st.pending = none) (ht : st.timerSet = false)
    (hc : st.store.editConfig = some cfg)
    (hf : st.store.editFuture = postConfigs cfg calls d) :
    (redoN calls.length st).store.editConfig = some (foldChanges cfg calls d) := by
  induction calls generalizing st cfg with
  | nil => simpa [redoN, foldChanges] using hc
  | cons ch rest ih =>
    have hclear : redoClear st = st := by
      rw [redoClear, if_neg (by rw [ht]; exact Bool.false_ne_true)]
    have hfcons : st.store.editFuture
        = applyChanges cfg ch d :: postConfigs (applyChanges cfg ch d) rest d := by
      rw [hf]
      rfl
    have hredo : redo st
        = { st with store := { st.store with
              editConfig := some (applyChanges cfg ch d),
              editHistory := st.store.editHistory ++ [cfg],
              editFuture := postConfigs (applyChanges cfg ch d) rest d,
              isDirty := true } } := by
      rw [redo, hclear]
      simp only [redoPop, hc, hfcons]
    have hiter : redoN (ch :: rest).length st = redoN rest.length (redo st) := by
      rw [redoN, redoN, show (ch :: rest).length = rest.length + 1 from rfl,
        Function.iterate_succ_apply]
    rw [hiter]
    have := ih (redo st) (applyChanges cfg ch d)
      (by rw [hredo]; exact hp) (by rw [hredo]; exact ht)
      (by rw [hredo]) (by rw [hredo])
    rw [this]
    simp [foldChanges]

theorem discreteEdits_editConfig (calls : List EditConfigChanges) (sess : Session)
    (cfg : EditConfig) (hc : sess.store.editConfig = some cfg)
    (hcap : sess.store.editHistory.length + calls.length ≤ MAX_HISTORY) :
    (discreteEdits sess calls).store.editConfig
      = some (foldChanges cfg calls (sess.store.clipEnd - sess.store.clipStart)) := by
  induction calls generalizing sess cfg with
  | nil => simpa [discreteEdits, foldChanges] using hc
  | cons ch rest ih =>
    have hstep := updateEditConfig_eq sess ch cfg hc (by simp at hcap; omega)
    have hfold : discreteEdits sess (ch :: rest)
        = discreteEdits (updateEditConfig sess ch) rest := by
      simp [discreteEdits]
    rw [hfold]
    have := ih (updateEditConfig sess ch)
      (applyChanges cfg ch (sess.store.clipEnd - sess.store.clipStart))
      (by rw [hstep]) (by rw [hstep]; simp at hcap ⊢; omega)
    rw [this, hstep]
    simp [foldChanges]

/-- C4 (amended): starting from any configuration `C0` with no pending
gesture, after `N` discrete edits — provided the history capacity is not
exceeded, `|history| + N ≤ 50` — performing `N` undos returns the
configuration exactly to `C0`, and `N` further redos returns it exactly
to the final post-edit configuration.  Without the capacity bound the
claim fails (see `claim4_history_integrity_cex`: the oldest entries are
evicted and cannot be undone). -/
theorem claim4_history_integrity (sess : Session) (cfg : EditConfig)
    (calls : List EditConfigChanges) (hp : sess.pending = none)
    (ht : sess.timerSet = false) (hc : sess.store.editConfig = some cfg)
    (hcap : sess.store.editHistory.length + calls.length ≤ MAX_HISTORY) :
    (undoN calls.length (discreteEdits sess calls)).store.editConfig = some cfg
    ∧ (redoN calls.length (undoN calls.length (discreteEdits sess calls))).store.editConfig
        = (discreteEdits sess calls).store.editConfig := by
  by_cases hne : calls = []
  · subst hne
    exact ⟨by simpa [undoN, discreteEdits] using hc, rfl⟩
  · have hP := undo_discrete_cancel calls sess cfg hp ht hc hcap hne
    have hE := discreteEdits_editConfig calls sess cfg hc hcap
    refine ⟨hP.2.2.1, ?_⟩
    have hQ := redo_postConfigs calls (undoN calls.length (discreteEdits sess calls)) cfg
      (sess.store.clipEnd - sess.store.clipStart) hP.1 hP.2.1 hP.2.2.1 hP.2.2.2.2
    rw [hQ, hE]

/-- Witness for C4: two discrete edits on `baseSession`, two undos, two
redos. -/
theorem claim4_history_integrity_witness :
    (undoN callsW.length (discreteEdits baseSession callsW)).store.editConfig
        = some baseConfig
    ∧ (redoN callsW.length
        (undoN callsW.length (discreteEdits baseSession callsW))).store.editConfig
        = (discreteEdits baseSession callsW).store.editConfig :=
  claim4_history_integrity baseSession baseConfig callsW rfl rfl rfl (by decide)

/-- The 51 distinct discrete edits of the C4 counterexample: edit `i`
replaces the `cuts` list by a singleton cut starting at `i`. -/
def calls51 : List EditConfigChanges :=
  (List.range 51).map fun i =>
    { cuts := some [⟨"c", (i : ℚ), (i : ℚ) + 1, "manual"⟩] }

set_option maxRecDepth 100000 in
/-- C4 counterexample: 51 discrete edits from a fresh session (empty
history) followed by 51 undos do not return to the initial
configuration — the bounded history evicted the oldest entry, so the
last undo is a no-op and the configuration stays at the state after the
first edit. -/
theorem claim4_history_integrity_cex :
    baseSession.store.editConfig = some baseConfig
    ∧ baseSession.store.editHistory = []
    ∧ calls51.length = 51
    ∧ (undoN 51 (discreteEdits baseSession calls51)).store.editConfig
        ≠ some baseConfig := by
  refine ⟨rfl, rfl, by decide, ?_⟩
  decide

/-! ## C6: bounded undo history in every reachable state -/

/-- The store's `create` defaults (its initial state). -/
def initialStore : EditorState :=
  { clip := none, project := none, sourceVideoUrl := none, proxyVideoUrl := none,
    useProxy := true, sourceVideos := [], transcript := [], clipStart := 0, clipEnd := 0,
    editConfig := none, editHistory := [], editFuture := [], selectedElement := none,
    timelineZoom := 50, timelineScroll := 0, isPlaying := false, currentTime := 0,
    totalDuration := 0, isDirty := false, isSaving := false, lastSavedAt := none }

/-- A fresh session: initial store, no armed timer, no pending snapshot. -/
def initialSession : Session := ⟨initialStore, false, none⟩

/-- The sessions reachable from the initial session through the store's
actions and the debounce-timer firing. -/
inductive Reachable : Session → Prop where
  | init : Reachable initialSession
  | initStoreStep (s : Session) (clip : Clip) (project : Project) (url : String)
      (proxy : Option String) (vids : List SourceVideo) (words : List Word)
      (cs ce : ℚ) : Reachable s →
      Reachable (initStore s clip project url proxy vids words cs ce)
  | toggleProxyStep (s : Session) : Reachable s → Reachable (toggleProxy s)
  | setPlaybackStateStep (s : Session) (p : Bool) (t d : ℚ) :
      Reachable s → Reachable (setPlaybackState s p t d)
  | updateEditConfigStep (s : Session) (ch : EditConfigChanges) :
      Reachable s → Reachable (updateEditConfig s ch)
  | updateEditConfigDebouncedStep (s : Session) (ch : EditConfigChanges) :
      Reachable s → Reachable (updateEditConfigDebounced s ch)
  | fireDebounceStep (s : Session) : Reachable s → Reachable (fireDebounce s)
  | undoStep (s : Session) : Reachable s → Reachable (undo s)
  | redoStep (s : Session) : Reachable s → Reachable (redo s)
  | selectElementStep (s : Session) (e : Option SelectedElement) :
      Reachable s → Reachable (selectElement s e)
  | setTimelineZoomStep (s : Session) (z : ℚ) :
      Reachable s → Reachable (setTimelineZoom s z)
  | setTimelineScrollStep (s : Session) (z : ℚ) :
      Reachable s → Reachable (setTimelineScroll s z)
  | markSavedStep (s : Session) (now : ℚ) : Reachable s → Reachable (markSaved s now)
  | markSavingStep (s : Session) : Reachable s → Reachable (markSaving s)
  | splitSegmentStep (s : Session) (segId : String) (t : ℚ) :
      Reachable s → Reachable (splitSegment s segId t)
  | deleteSegmentStep (s : Session) (segId : String) :
      Reachable s → Reachable (deleteSegment s segId)
  | adjustSegmentEdgeStep (s : Session) (segId : String) (e : String) (t : ℚ) :
      Reachable s → Reachable (adjustSegmentEdge s segId e t)
  | addZoomStep (s : Session) (t : ℚ) (freshId : String) :
      Reachable s → Reachable (addZoom s t freshId)
  | updateZoomStep (s : Session) (zid : String) (ch : ZoomChanges) :
      Reachable s → Reachable (updateZoom s zid ch)
  | deleteZoomStep (s : Session) (zid : String) :
      Reachable s → Reachable (deleteZoom s zid)
  | updateCaptionTextStep (s : Session) (i : Nat) (txt : String) :
      Reachable s → Reachable (updateCaptionText s i txt)
  | toggleWordHighlightStep (s : Session) (i : Nat) :
      Reachable s → Reachable (toggleWordHighlight s i)
  | hideWordStep (s : Session) (i : Nat) : Reachable s → Reachable (hideWord s i)
  | updateCaptionStyleStep (s : Session) (ch : CaptionChanges) :
      Reachable s → Reachable (updateCaptionStyle s ch)
  | addAnnotStep (s : Session) (t : ℚ) (freshId : String) :
      Reachable s → Reachable (addAnnotationAct s t freshId)
  | updateAnnotStep (s : Session) (aid : String) (ch : AnnotChanges) :
      Reachable s → Reachable (updateAnnotationAct s aid ch)
  | deleteAnnotStep (s : Session) (aid : String) :
      Reachable s → Reachable (deleteAnnotationAct s aid)

theorem undoFlush_histFuture (S : Session)
    (hb : S.store.editHistory.length + S.store.editFuture.length ≤ MAX_HISTORY) :
    (undoFlush S).store.editHistory.length + (undoFlush S).store.editFuture.length
      ≤ MAX_HISTORY := by
  cases hp : S.pending with
  | none => simpa [undoFlush, hp] using hb
  | some snap =>
    simp only [undoFlush, hp]
    simpa using sliceLast_length_le (S.store.editHistory ++ [snap]) MAX_HISTORY

theorem undoPop_histFuture (S : Session)
    (hb : S.store.editHistory.length + S.store.editFuture.length ≤ MAX_HISTORY) :
    (undoPop S).store.editHistory.length + (undoPop S).store.editFuture.length
      ≤ MAX_HISTORY := by
  cases hcfg : S.store.editConfig with
  | none => simpa [undoPop, hcfg] using hb
  | some cfg =>
    cases hl : S.store.editHistory.getLast? with
    | none => simpa [undoPop, hcfg, hl] using hb
    | some prev =>
      have hlen : 1 ≤ S.store.editHistory.length := by
        cases hhist : S.store.editHistory with
        | nil =>
          rw [hhist] at hl
          simp at hl
        | cons a b => simp [hhist]
      simp only [undoPop, hcfg, hl]
      simp only [List.length_dropLast, List.length_cons]
      omega

theorem redoPop_histFuture (S : Session)
    (hb : S.store.editHistory.length + S.store.editFuture.length ≤ MAX_HISTORY) :
    (redoPop S).store.editHistory.length + (redoPop S).store.editFuture.length
      ≤ MAX_HISTORY := by
  cases hcfg : S.store.editConfig with
  | none => simpa [redoPop, hcfg] using hb
  | some cfg =>
    cases hf : S.store.editFuture with
    | nil => simpa [redoPop, hcfg, hf] using hb
    | cons nxt rest =>
      rw [hf] at hb
      simp only [redoPop, hcfg, hf]
      simp at hb ⊢
      omega

theorem reachable_histFuture_le (sess : Session) (h : Reachable sess) :
    sess.store.editHistory.length + sess.store.editFuture.length ≤ MAX_HISTORY := by
  induction h with
  | init => simp [initialSession, initialStore, MAX_HISTORY]
  | initStoreStep s clip project url proxy vids words cs ce _ _ =>
    simp [initStore, MAX_HISTORY]
  | toggleProxyStep s _ ih =>
    cases hpx : s.store.proxyVideoUrl with
    | none => simpa [toggleProxy, hpx] using ih
    | some u => simpa [toggleProxy, hpx] using ih
  | setPlaybackStateStep s p t d _ ih => simpa [setPlaybackState] using ih
  | updateEditConfigStep s ch _ ih =>
    cases hcfg : s.store.editConfig with
    | none => simpa [updateEditConfig, hcfg] using ih
    | some cfg =>
      simp only [updateEditConfig, hcfg, pushHistoryPair]
      simpa using sliceLast_length_le (s.store.editHistory ++ [cfg]) MAX_HISTORY
  | updateEditConfigDebouncedStep s ch _ ih =>
    cases hcfg : s.store.editConfig with
    | none => simpa [updateEditConfigDebounced, hcfg] using ih
    | some cfg => simpa [updateEditConfigDebounced, hcfg] using ih
  | fireDebounceStep s _ ih =>
    cases hp : s.pending with
    | none => simpa [fireDebounce, hp] using ih
    | some snap =>
      cases hcfg : s.store.editConfig with
      | none => simpa [fireDebounce, hp, hcfg] using ih
      | some cfg =>
        simp only [fireDebounce, hp, hcfg]
        simpa using sliceLast_length_le (s.store.editHistory ++ [snap]) MAX_HISTORY
  | undoStep s _ ih => exact undoPop_histFuture _ (undoFlush_histFuture _ ih)
  | redoStep s _ ih =>
    refine redoPop_histFuture _ ?_
    cases htm : s.timerSet with
    | false => simpa [redoClear, htm] using ih
    | true => simpa [redoClear, htm] using ih
  | selectElementStep s e _ ih => simpa [selectElement] using ih
  | setTimelineZoomStep s z _ ih => simpa [setTimelineZoom] using ih
  | setTimelineScrollStep s z _ ih => simpa [setTimelineScroll] using ih
  | markSavedStep s now _ ih => simpa [markSaved] using ih
  | markSavingStep s _ ih => simpa [markSaving] using ih
  | splitSegmentStep s segId t _ ih =>
    cases hcfg : s.store.editConfig with
    | none => simpa [splitSegment, hcfg] using ih
    | some cfg =>
      simp only [splitSegment, hcfg, pushHistoryPair]
      simpa using sliceLast_length_le (s.store.editHistory ++ [cfg]) MAX_HISTORY
  | deleteSegmentStep s segId _ ih =>
    cases hcfg : s.store.editConfig with
    | none => simpa [deleteSegment, hcfg] using ih
    | some cfg =>
      simp only [deleteSegment, hcfg, pushHistoryPair]
      simpa using sliceLast_length_le (s.store.editHistory ++ [cfg]) MAX_HISTORY
  | adjustSegmentEdgeStep s segId e t _ ih =>
    cases hcfg : s.store.editConfig with
    | none => simpa [adjustSegmentEdge, hcfg] using ih
    | some cfg =>
      simp only [adjustSegmentEdge, hcfg, pushHistoryPair]
      simpa using sliceLast_length_le (s.store.editHistory ++ [cfg]) MAX_HISTORY
  | addZoomStep s t freshId _ ih =>
    cases hcfg : s.store.editConfig with
    | none => simpa [addZoom, hcfg] using ih
    | some cfg =>
      simp only [addZoom, hcfg, pushHistoryPair]
      simpa using sliceLast_length_le (s.store.editHistory ++ [cfg]) MAX_HISTORY
  | updateZoomStep s zid ch _ ih =>
    cases hcfg : s.store.editConfig with
    | none => simpa [updateZoom, hcfg] using ih
    | some cfg =>
      simp only [updateZoom, hcfg, pushHistoryPair]
      simpa using sliceLast_length_le (s.store.editHistory ++ [cfg]) MAX_HISTORY
  | deleteZoomStep s zid _ ih =>
    cases hcfg : s.store.editConfig with
    | none => simpa [deleteZoom, hcfg] using ih
    | some cfg =>
      simp only [deleteZoom, hcfg, pushHistoryPair]
      simpa using sliceLast_length_le (s.store.editHistory ++ [cfg]) MAX_HISTORY
  | updateCaptionTextStep s i txt _ ih =>
    cases hcfg : s.store.editConfig with
    | none => simpa [updateCaptionText, hcfg] using ih
    | some cfg =>
      simp only [updateCaptionText, hcfg, pushHistoryPair]
      simpa using sliceLast_length_le (s.store.editHistory ++ [cfg]) MAX_HISTORY
  | toggleWordHighlightStep s i _ ih =>
    cases hcfg : s.store.editConfig with
    | none => simpa [toggleWordHighlight, hcfg] using ih
    | some cfg =>
      simp only [toggleWordHighlight, hcfg, pushHistoryPair]
      simpa using sliceLast_length_le (s.store.editHistory ++ [cfg]) MAX_HISTORY
  | hideWordStep s i _ ih =>
    cases hcfg : s.store.editConfig with
    | none => simpa [hideWord, hcfg] using ih
    | some cfg =>
      simp only [hideWord, hcfg, pushHistoryPair]
      simpa using sliceLast_length_le (s.store.editHistory ++ [cfg]) MAX_HISTORY
  | updateCaptionStyleStep s ch _ ih =>
    cases hcfg : s.store.editConfig with
    | none => simpa [updateCaptionStyle, hcfg] using ih
    | some cfg =>
      simp only [updateCaptionStyle, hcfg, pushHistoryPair]
      simpa using sliceLast_length_le (s.store.editHistory ++ [cfg]) MAX_HISTORY
  | addAnnotStep s t freshId _ ih =>
    cases hcfg : s.store.editConfig with
    | none => simpa [addAnnotationAct, hcfg] using ih
    | some cfg =>
      simp only [addAnnotationAct, hcfg, pushHistoryPair]
      simpa using sliceLast_length_le (s.store.editHistory ++ [cfg]) MAX_HISTORY
  | updateAnnotStep s aid ch _ ih =>
    cases hcfg : s.store.editConfig with
    | none => simpa [updateAnnotationAct, hcfg] using ih
    | some cfg =>
      simp only [updateAnnotationAct, hcfg, pushHistoryPair]
      simpa using sliceLast_length_le (s.store.editHistory ++ [cfg]) MAX_HISTORY
  | deleteAnnotStep s aid _ ih =>
    cases hcfg : s.store.editConfig with
    | none => simpa [deleteAnnotationAct, hcfg] using ih
    | some cfg =>
      simp only [deleteAnnotationAct, hcfg, pushHistoryPair]
      simpa using sliceLast_length_le (s.store.editHistory ++ [cfg]) MAX_HISTORY

/-- C6: every immediate (discrete) edit pushes the pre-mutation snapshot
through `pushHistory`, which caps the undo stack at 50 entries (evicting
the oldest when full) and clears the redo stack; consequently, in every
session reachable through the store's actions the undo stack holds at
most 50 entries. -/
theorem claim6_bounded_history :
    (∀ (st : EditorState) (cfg : EditConfig), st.editConfig = some cfg →
      pushHistoryPair st = (sliceLast (st.editHistory ++ [cfg]) MAX_HISTORY, [])
      ∧ (pushHistoryPair st).1.length ≤ MAX_HISTORY
      ∧ (st.editHistory.length = MAX_HISTORY →
          (pushHistoryPair st).1 = st.editHistory.tail ++ [cfg]))
    ∧ (∀ sess : Session, Reachable sess →
        sess.store.editHistory.length ≤ MAX_HISTORY) := by
  constructor
  · intro st cfg hc
    have hdef : pushHistoryPair st = (sliceLast (st.editHistory ++ [cfg]) MAX_HISTORY, []) := by
      simp only [pushHistoryPair, hc]
    refine ⟨hdef, ?_, ?_⟩
    · rw [hdef]
      exact sliceLast_length_le _ _
    · intro hfull
      rw [hdef]
      show sliceLast (st.editHistory ++ [cfg]) MAX_HISTORY = st.editHistory.tail ++ [cfg]
      rw [sliceLast]
      have hlen : (st.editHistory ++ [cfg]).length - MAX_HISTORY = 1 := by
        simp [hfull]
      rw [hlen, List.drop_append_of_le_length (by rw [hfull]; norm_num [MAX_HISTORY]),
        List.drop_one]
  · intro sess hr
    have := reachable_histFuture_le sess hr
    omega

/-- A store with a full (50-entry) undo stack, for the C6 witness. -/
def storeFull : EditorState :=
  { baseStore with editHistory := List.replicate MAX_HISTORY baseConfig }

/-- Witness for C6: pushing onto a full stack keeps 50 entries and evicts
the oldest; the initial session satisfies the bound. -/
theorem claim6_bounded_history_witness :
    (pushHistoryPair storeFull
        = (sliceLast (storeFull.editHistory ++ [baseConfig]) MAX_HISTORY, [])
      ∧ (pushHistoryPair storeFull).1.length ≤ MAX_HISTORY
      ∧ (storeFull.editHistory.length = MAX_HISTORY →
          (pushHistoryPair storeFull).1 = storeFull.editHistory.tail ++ [baseConfig]))
    ∧ initialSession.store.editHistory.length ≤ MAX_HISTORY :=
  ⟨claim6_bounded_history.1 storeFull baseConfig rfl,
   claim6_bounded_history.2 initialSession Reachable.init⟩

/-! ## C9: snapping and drag commit -/

theorem mem_snapPoints_iff (segments : List SegmentConfig) (zooms : List ZoomConfig)
    (td cd tz p : ℚ) :
    p ∈ snapPoints segments zooms td cd tz
      ↔ p ∈ (snapPointsRaw segments zooms td cd tz).map roundMs := by
  unfold snapPoints
  rw [(List.perm_insertionSort _ _).mem_iff]
  exact List.mem_dedup

theorem snapFold_spec (threshold t : ℚ) (pts : List ℚ) :
    ∀ (acc : Option (ℚ × ℚ)),
      (∀ q, acc = some q → q.2 = |t - q.1| ∧ q.2 < threshold) →
      (∀ q, snapFold threshold t pts acc = some q →
          (q.2 = |t - q.1| ∧ q.2 < threshold)
          ∧ (q.1 ∈ pts ∨ acc = some q)
          ∧ (∀ p ∈ pts, |t - p| < threshold → q.2 ≤ |t - p|)
          ∧ (∀ q0, acc = some q0 → q.2 ≤ q0.2))
      ∧ (snapFold threshold t pts acc = none ↔
          (acc = none ∧ ∀ p ∈ pts, ¬ (|t - p| < threshold))) := by
  induction pts with
  | nil =>
    intro acc hacc
    constructor
    · intro q hq
      have hq' : acc = some q := by simpa [snapFold] using hq
      refine ⟨hacc q hq', Or.inr hq', by simp, ?_⟩
      intro q0 h0
      rw [hq'] at h0
      cases Option.some_inj.mp h0
      exact le_refl _
    · simp [snapFold]
  | cons sp rest ih =>
    intro acc hacc
    cases acc with
    | none =>
      by_cases hd : |t - sp| < threshold
      · have hstep : snapFold threshold t (sp :: rest) none
            = snapFold threshold t rest (some (sp, |t - sp|)) := by
          simp [snapFold, hd]
        have hinv : ∀ q, (some (sp, |t - sp|) : Option (ℚ × ℚ)) = some q →
            q.2 = |t - q.1| ∧ q.2 < threshold := by
          intro q hq
          cases Option.some_inj.mp hq
          exact ⟨rfl, hd⟩
        have H := ih (some (sp, |t - sp|)) hinv
        constructor
        · intro q hq
          rw [hstep] at hq
          have h1 := H.1 q hq
          refine ⟨h1.1, ?_, ?_, ?_⟩
          · rcases h1.2.1 with hm | hm
            · exact Or.inl (List.mem_cons_of_mem _ hm)
            · cases Option.some_inj.mp hm
              exact Or.inl (List.mem_cons_self _ _)
          · intro p hp hpth
            rcases List.mem_cons.mp hp with rfl | hp'
            · exact h1.2.2.2 (p, |t - p|) rfl
            · exact h1.2.2.1 p hp' hpth
          · intro q0 h0
            exact Option.noConfusion h0
        · rw [hstep, H.2]
          constructor
          · rintro ⟨h0, _⟩
            exact Option.noConfusion h0
          · rintro ⟨_, hall⟩
            exact absurd hd (hall sp (List.mem_cons_self _ _))
      · have hstep : snapFold threshold t (sp :: rest) none
            = snapFold threshold t rest none := by
          simp [snapFold, hd]
        have H := ih none (fun q hq => Option.noConfusion hq)
        constructor
        · intro q hq
          rw [hstep] at hq
          have h1 := H.1 q hq
          refine ⟨h1.1, ?_, ?_, ?_⟩
          · rcases h1.2.1 with hm | hm
            · exact Or.inl (List.mem_cons_of_mem _ hm)
            · exact Or.inr hm
          · intro p hp hpth
            rcases List.mem_cons.mp hp with rfl | hp'
            · exact absurd hpth hd
            · exact h1.2.2.1 p hp' hpth
          · intro q0 h0
            exact Option.noConfusion h0
        · rw [hstep, H.2]
          constructor
          · rintro ⟨h0, hall⟩
            refine ⟨rfl, ?_⟩
            intro p hp
            rcases List.mem_cons.mp hp with rfl | hp'
            · exact hd
            · exact hall p hp'
          · rintro ⟨h0, hall⟩
            exact ⟨rfl, fun p hp => hall p (List.mem_cons_of_mem _ hp)⟩
    | some q0 =>
      have hq0 := hacc q0 rfl
      by_cases hb : |t - sp| < threshold ∧ |t - sp| < q0.2
      · have hstep : snapFold threshold t (sp :: rest) (some q0)
            = snapFold threshold t rest (some (sp, |t - sp|)) := by
          cases q0 with
          | mk sp0 d0 => simp [snapFold, hb.1, hb.2]
        have hinv : ∀ q, (some (sp, |t - sp|) : Option (ℚ × ℚ)) = some q →
            q.2 = |t - q.1| ∧ q.2 < threshold := by
          intro q hq
          cases Option.some_inj.mp hq
          exact ⟨rfl, hb.1⟩
        have H := ih (some (sp, |t - sp|)) hinv
        constructor
        · intro q hq
          rw [hstep] at hq
          have h1 := H.1 q hq
          refine ⟨h1.1, ?_, ?_, ?_⟩
          · rcases h1.2.1 with hm | hm
            · exact Or.inl (List.mem_cons_of_mem _ hm)
            · cases Option.some_inj.mp hm
              exact Or.inl (List.mem_cons_self _ _)
          · intro p hp hpth
            rcases List.mem_cons.mp hp with rfl | hp'
            · exact h1.2.2.2 (p, |t - p|) rfl
            · exact h1.2.2.1 p hp' hpth
          · intro q1 h1'
            cases Option.some_inj.mp h1'
            have hle : q.2 ≤ |t - sp| := h1.2.2.2 (sp, |t - sp|) rfl
            exact le_trans hle (le_of_lt hb.2)
        · rw [hstep, H.2]
          constructor
          · rintro ⟨h0, _⟩
            exact Option.noConfusion h0
          · rintro ⟨h0, _⟩
            exact Option.noConfusion h0
      · have hstep : snapFold threshold t (sp :: rest) (some q0)
            = snapFold threshold t rest (some q0) := by
          cases q0 with
          | mk sp0 d0 =>
            have : ¬ (|t - sp| < threshold ∧ |t - sp| < d0) := hb
            simp [snapFold, this]
        have H := ih (some q0) hacc
        constructor
        · intro q hq
          rw [hstep] at hq
          have h1 := H.1 q hq
          refine ⟨h1.1, ?_, ?_, h1.2.2.2⟩
          · rcases h1.2.1 with hm | hm
            · exact Or.inl (List.mem_cons_of_mem _ hm)
            · exact Or.inr hm
          · intro p hp hpth
            rcases List.mem_cons.mp hp with rfl | hp'
            · have hge : q0.2 ≤ |t - p| := by
                by_contra hlt
                push_neg at hlt
                exact hb ⟨hpth, hlt⟩
              exact le_trans (h1.2.2.2 q0 rfl) hge
            · exact h1.2.2.1 p hp' hpth
        · rw [hstep, H.2]
          constructor
          · rintro ⟨h0, _⟩
            exact Option.noConfusion h0
          · rintro ⟨h0, _⟩
            exact Option.noConfusion h0

/-- C9 (amended): the snap-point list consists of every segment's output
start and end, every zoom's start and end, and the integer-second grid
points, each rounded to the nearest millisecond, deduplicated and sorted
(the rounding is the amendment the counterexample forces); `snapTime`
returns the raw candidate unchanged when no snap point lies strictly
within the 8-pixel-equivalent threshold, and otherwise replaces it by a
nearest snap point within the threshold; and the mouse-up handler
commits the snapped candidate (the initial time plus the pixel delta
converted to time, clamped at 0) to the store only when the net pointer
displacement exceeds 2 pixels. -/
theorem claim9_snapping :
    (∀ (segments : List SegmentConfig) (zooms : List ZoomConfig) (td cd tz : ℚ),
      (snapPoints segments zooms td cd tz).Sorted (· ≤ ·)
      ∧ (snapPoints segments zooms td cd tz).Nodup
      ∧ (∀ p, p ∈ snapPoints segments zooms td cd tz
          ↔ p ∈ (snapPointsRaw segments zooms td cd tz).map roundMs))
    ∧ (∀ (points : List ℚ) (tz t : ℚ),
        ((snapTime points tz t).snapped = false →
          (snapTime points tz t).time = t
          ∧ ∀ p ∈ points, ¬ (|t - p| < xToTime tz 8))
        ∧ ((snapTime points tz t).snapped = true →
          (snapTime points tz t).time ∈ points
          ∧ |t - (snapTime points tz t).time| < xToTime tz 8
          ∧ ∀ p ∈ points, |t - p| < xToTime tz 8 →
              |t - (snapTime points tz t).time| ≤ |t - p|))
    ∧ (∀ (sess : Session) (drag : DragState) (deltaX : ℚ),
        (¬ (|deltaX| > 2) → dragMouseUp sess drag deltaX = sess)
        ∧ (∀ segId edge initT, |deltaX| > 2 →
            dragMouseUp sess (DragState.segmentEdge segId edge initT) deltaX
              = adjustSegmentEdge sess segId edge
                  (snapTime (timelineSnapPoints sess.store) sess.store.timelineZoom
                    (max 0 (initT + xToTime sess.store.timelineZoom deltaX))).time)
        ∧ (∀ zid initT, |deltaX| > 2 →
            dragMouseUp sess (DragState.zoomMove zid initT) deltaX
              = updateZoom sess zid
                  { time := some (snapTime (timelineSnapPoints sess.store)
                      sess.store.timelineZoom
                      (max 0 (initT + xToTime sess.store.timelineZoom deltaX))).time })) := by
  refine ⟨?_, ?_, ?_⟩
  · intro segments zooms td cd tz
    refine ⟨List.sorted_insertionSort _ _, ?_, fun p => mem_snapPoints_iff _ _ _ _ _ _⟩
    exact ((List.perm_insertionSort _ _).nodup_iff).mpr (List.nodup_dedup _)
  · intro points tz t
    have H := snapFold_spec (xToTime tz 8) t points none (fun q hq => Option.noConfusion hq)
    constructor
    · intro hfalse
      cases hsf : snapFold (xToTime tz 8) t points none with
      | some q =>
        have : (snapTime points tz t).snapped = true := by
          simp [snapTime, hsf]
        rw [this] at hfalse
        exact absurd hfalse (by simp)
      | none =>
        have hiff := H.2.mp hsf
        have : snapTime points tz t = ⟨t, false, none⟩ := by
          simp [snapTime, hsf]
        rw [this]
        exact ⟨rfl, hiff.2⟩
    · intro htrue
      cases hsf : snapFold (xToTime tz 8) t points none with
      | none =>
        have : (snapTime points tz t).snapped = false := by
          simp [snapTime, hsf]
        rw [this] at htrue
        exact absurd htrue (by simp)
      | some q =>
        have h1 := H.1 q hsf
        have hst : snapTime points tz t = ⟨q.1, true, some q.1⟩ := by
          simp [snapTime, hsf]
        rw [hst]
        have hmem : q.1 ∈ points := by
          rcases h1.2.1 with hm | hm
          · exact hm
          · exact Option.noConfusion hm
        refine ⟨hmem, ?_, ?_⟩
        · rw [← h1.1.1]
          exact h1.1.2
        · intro p hp hpth
          rw [← h1.1.1]
          exact h1.2.2.1 p hp hpth
  · intro sess drag deltaX
    refine ⟨?_, ?_, ?_⟩
    · intro hle
      simp only [dragMouseUp, if_neg hle]
    · intro segId edge initT hgt
      simp only [dragMouseUp, if_pos hgt]
    · intro zid initT hgt
      simp only [dragMouseUp, if_pos hgt]

/-- The C9 counterexample segment list: a single kept range `[0, 1/3]`,
whose output end is not millisecond-aligned. -/
def segsThird : List SegmentConfig := [⟨"a", 0, 1/3, "none", none⟩]

/-- C9 counterexample: for the segment list `[[0, 1/3]]` the segment's
output end `1/3` is not in the snap-point list — the code rounds every
point to the nearest millisecond (`0.333`) before deduplicating and
sorting, so the snap-point set is not the set of exact boundaries the
claim describes. -/
theorem claim9_snapping_cex :
    ((segmentBlocks segsThird 50).map SegmentBlock.outputEnd) = [1/3]
    ∧ ¬ ((1/3 : ℚ) ∈ snapPoints segsThird [] (1/3) (1/3) 50) := by
  constructor
  · norm_num [segmentBlocks, segmentBlocksAux, segsThird, timeToX]
  · rw [mem_snapPoints_iff]
    have hfl : ⌊(1 : ℚ)/3⌋ = 0 := by norm_num
    have hraw : snapPointsRaw segsThird [] (1/3) (1/3) 50 = [0, 1/3, 0] := by
      norm_num [snapPointsRaw, segmentBlocks, segmentBlocksAux, segsThird, timeToX, hfl,
        List.range_succ]
    rw [hraw]
    have h0 : roundMs 0 = 0 := by
      norm_num [roundMs, round_eq]
    have h3 : roundMs (1/3) = 333/1000 := by
      rw [roundMs]
      rw [show ((1:ℚ)/3) * 1000 = 1000/3 by norm_num]
      rw [show round ((1000:ℚ)/3) = 333 by rw [round_eq]; norm_num]
      norm_num
    simp only [List.map_cons, List.map_nil, h0, h3, List.mem_cons, List.not_mem_nil,
      or_false]
    norm_num

/-- Witness for C9: instantiate the snap-point characterization on the
scenario list `[[0,10],[12,20]]` and the commit rule at `deltaX = 1`
(below the 2-pixel threshold, so the drag is not committed). -/
theorem claim9_snapping_witness :
    ((snapPoints segsW [] 18 20 50).Sorted (· ≤ ·)
      ∧ (snapPoints segsW [] 18 20 50).Nodup
      ∧ (∀ p, p ∈ snapPoints segsW [] 18 20 50
          ↔ p ∈ (snapPointsRaw segsW [] 18 20 50).map roundMs))
    ∧ (¬ (|(1 : ℚ)| > 2) →
        dragMouseUp baseSession (DragState.zoomMove "z" 0) 1 = baseSession) :=
  ⟨claim9_snapping.1 segsW [] 18 20 50,
   (claim9_snapping.2.2 baseSession (DragState.zoomMove "z" 0) 1).1⟩

end QuickCut
